import Mathlib

/-!
Verification of the sparkstart project-scaffolding tool.

The Python sources are shallowly embedded: paths are lists of segments, the
filesystem is an explicit record threaded through the orchestrator, external
collaborators (the git binary, the GitHub HTTP API, the interactive prompt)
are oracles supplied as an `Ext` record, and each side effect of an
invocation is additionally recorded in an event trace.  Template bodies are
out of the orchestration scope (the spec treats them as opaque named blobs
selected by key), so every template-module string is a field of a `Registry`
record that the orchestrator receives; theorems quantify over it and
witnesses instantiate it with a small concrete fixture.
-/

namespace Sparkstart

/-! ### Character / string helpers (Python semantics) -/

/-- ASCII lower-casing of one character, the behaviour of Python
`str.lower` on the ASCII range (the only range reachable here, since the
reserved-name check runs after the charset check). -/
def lowerChar (c : Char) : Char :=
  if 65 ≤ c.toNat ∧ c.toNat ≤ 90 then Char.ofNat (c.toNat + 32) else c

/-- Python `str.lower` restricted to the ASCII behaviour. -/
def pyLower (s : String) : String :=
  String.mk (s.data.map lowerChar)

/-- Split a character list at newline characters; mirrors the splitting
underlying Python `str.splitlines` for newline-only separators. -/
def splitNl : List Char → List (List Char)
  | [] => [[]]
  | c :: t =>
    if c = '\n' then [] :: splitNl t
    else
      match splitNl t with
      | [] => [[c]]
      | h :: r => (c :: h) :: r

/-- Python `str.splitlines` (for `\n` separators): split at newlines and
drop the trailing empty piece produced by a final newline. -/
def pySplitlines (s : String) : List String :=
  let l := (splitNl s.data).map String.mk
  if l.getLast? = some "" then l.dropLast else l

/-- Join a list of character lists with newline characters, the behaviour
of Python `"\n".join`. -/
def joinNlChars : List (List Char) → List Char
  | [] => []
  | [l] => l
  | l :: r => l ++ '\n' :: joinNlChars r

/-- Python `"\n".join` on strings. -/
def pyJoinNl (ls : List String) : String :=
  String.mk (joinNlChars (ls.map String.data))

/-- Does `needle` occur as a contiguous segment of `hay`?  Executable form
of substring occurrence. -/
def segOf (needle : List Char) : List Char → Bool
  | [] => needle.isEmpty
  | c :: t => needle.isPrefixOf (c :: t) || segOf needle t

/-- `occursIn needle hay`: the string `needle` occurs as a contiguous
substring of the string `hay`. -/
def occursIn (needle hay : String) : Prop :=
  segOf needle.data hay.data = true

instance (n h : String) : Decidable (occursIn n h) := by
  unfold occursIn; infer_instance

/-- Python `str.replace(old, new, 1)` on character lists: replace the first
occurrence of `old` (assumed nonempty at call sites) by `new`. -/
def replaceFirstChars (old new : List Char) : List Char → List Char
  | [] => []
  | c :: t =>
    if old.isPrefixOf (c :: t) then new ++ (c :: t).drop old.length
    else c :: replaceFirstChars old new t

/-- Python `str.replace(old, new, 1)` on strings. -/
def pyReplaceFirst (s old new : String) : String :=
  String.mk (replaceFirstChars old.data new.data s.data)

/-! ### Validation (`src/sparkstart/validation.py`) -/

/-- Error raised by the validation functions (`ValidationError` in the
source carries only a message; the constructors record which check fired). -/
inductive VErr where
  | emptyName
  | tooLong
  | badChars
  | reservedName
  | badLanguage
  | badTemplate
deriving Repr, DecidableEq

/-- `VALID_LANGUAGES` from `validation.py`. -/
def VALID_LANGUAGES : List String := ["python", "rust", "javascript", "cpp"]

/-- Languages admitting templates, from `VALID_TEMPLATES` in
`validation.py` (only python, with the single template `pygame`). -/
def VALID_TEMPLATES : List (String × List String) := [("python", ["pygame"])]

/-- The reserved project names of `validate_project_name`. -/
def reservedNames : List String := ["test", "build", "dist", "env", "venv"]

/-- Head-character class of the regex `^[a-zA-Z_][a-zA-Z0-9_-]*$`. -/
def nameHeadOk (c : Char) : Bool :=
  c.isAlpha || c == '_'

/-- Tail-character class of the regex `^[a-zA-Z_][a-zA-Z0-9_-]*$`. -/
def nameTailOk (c : Char) : Bool :=
  c.isAlphanum || c == '_' || c == '-'

/-- Core of the name regex on a character list (nonempty, head class then
tail class). -/
def nameRegexCore : List Char → Bool
  | [] => false
  | c :: rest => nameHeadOk c && rest.all nameTailOk

/-- Python `re.match(r"^[a-zA-Z_][a-zA-Z0-9_-]*$", s)`: `$` also matches
just before a single trailing newline, so a final `\n` is tolerated. -/
def matchesNameRegex (s : String) : Bool :=
  let l := s.data
  nameRegexCore (if l.getLast? = some '\n' then l.dropLast else l)

/-- `validate_project_name` from `src/sparkstart/validation.py`: nonempty,
at most 50 characters, matches the name regex, and its lower-casing is not
a reserved name. -/
def validate_project_name (name : String) : Except VErr String :=
  if name = "" then .error .emptyName
  else if 50 < name.length then .error .tooLong
  else if ¬ matchesNameRegex name then .error .badChars
  else if pyLower name ∈ reservedNames then .error .reservedName
  else .ok name

/-- `validate_language` from `src/sparkstart/validation.py`. -/
def validate_language (lang : String) : Except VErr String :=
  if lang ∈ VALID_LANGUAGES then .ok lang else .error .badLanguage

/-- `validate_template` from `src/sparkstart/validation.py`: `None` always
passes; otherwise the language must have a template list containing the
requested template. -/
def validate_template (template : Option String) (lang : String) :
    Except VErr (Option String) :=
  match template with
  | none => .ok none
  | some t =>
    match VALID_TEMPLATES.lookup lang with
    | none => .error .badTemplate
    | some ts => if t ∈ ts then .ok (some t) else .error .badTemplate

instance {ε α : Type} [DecidableEq ε] [DecidableEq α] :
    DecidableEq (Except ε α) := fun a b =>
  match a, b with
  | .error e, .error f => decidable_of_iff (e = f) (by simp)
  | .error _, .ok _ => isFalse (by simp)
  | .ok _, .error _ => isFalse (by simp)
  | .ok a, .ok b => decidable_of_iff (a = b) (by simp)

/-! ### Filesystem model -/

/-- A filesystem path, as a list of segments from the root. -/
abbrev FPath := List String

/-- A filesystem: the directories that exist and the regular files with
their contents.  Creation order is kept (both lists are append-ordered). -/
structure FS where
  dirs : List FPath
  files : List (FPath × String)
deriving Repr, DecidableEq

/-- The empty filesystem. -/
def FS.empty : FS := ⟨[], []⟩

/-- `Path.exists`: the path names an existing directory or file. -/
def FS.existsPath (fs : FS) (p : FPath) : Bool :=
  fs.dirs.contains p || fs.files.any (fun f => f.1 == p)

/-- `Path.mkdir`: record a new directory. -/
def FS.mkdirFs (fs : FS) (p : FPath) : FS :=
  { fs with dirs := fs.dirs ++ [p] }

/-- `Path.write_text`: overwrite the file at `p` with `c`. -/
def FS.write (fs : FS) (p : FPath) (c : String) : FS :=
  { fs with files := fs.files.filter (fun f => ¬ f.1 = p) ++ [(p, c)] }

/-- `Path.read_text`-style lookup: the content of the file at `p`. -/
def FS.read (fs : FS) (p : FPath) : Option String :=
  (fs.files.find? (fun f => f.1 == p)).map (fun f => f.2)

/-- `shutil.rmtree`: remove the directory `p` and every entry below it. -/
def FS.rmtree (fs : FS) (p : FPath) : FS :=
  { dirs := fs.dirs.filter (fun q => ¬ p <+: q),
    files := fs.files.filter (fun f => ¬ p <+: f.1) }

/-- No entry of `fs` lies at or below `p` (the state before a successful
exclusive creation of `p`). -/
def FS.freshAt (fs : FS) (p : FPath) : Prop :=
  (∀ q ∈ fs.dirs, ¬ p <+: q) ∧ (∀ f ∈ fs.files, ¬ p <+: f.1)

instance (fs : FS) (p : FPath) : Decidable (fs.freshAt p) := by
  unfold FS.freshAt; infer_instance

/-- One observable side effect of an invocation. -/
inductive Event where
  /-- a directory was created -/
  | mkdirEv (p : FPath)
  /-- a file was written with the given content -/
  | fileWrite (p : FPath) (content : String)
  /-- an external git command was run (argument vector, working dir) -/
  | gitCmd (args : List String) (cwd : FPath)
  /-- a message was printed to the console (`typer.secho` / `typer.echo`) -/
  | echo (msg : String)
  /-- an HTTP request was sent to the hosting API -/
  | httpReq (method : String) (url : String)
  /-- a browser window was opened -/
  | browserOpen (url : String)
  /-- a virtual environment was created below the given directory -/
  | venvCreate (p : FPath)
deriving Repr, DecidableEq

/-- A pure filesystem operation emitted by a scaffolder, in source order. -/
inductive FsOp where
  | mkdirOp (p : FPath)
  | writeOp (p : FPath) (c : String)
deriving Repr, DecidableEq

/-- Relocate a scaffolder-relative operation below the project root. -/
def FsOp.under (root : FPath) : FsOp → FsOp
  | .mkdirOp p => .mkdirOp (root ++ p)
  | .writeOp p c => .writeOp (root ++ p) c

/-- Apply one operation to a filesystem. -/
def FS.applyOp (fs : FS) : FsOp → FS
  | .mkdirOp p => fs.mkdirFs p
  | .writeOp p c => fs.write p c

/-- Apply a list of operations in order. -/
def FS.applyOps (fs : FS) (ops : List FsOp) : FS :=
  ops.foldl FS.applyOp fs

/-- The event recording an operation. -/
def FsOp.event : FsOp → Event
  | .mkdirOp p => .mkdirEv p
  | .writeOp p c => .fileWrite p c

/-- Orchestrator state: the filesystem plus the trace of events so far. -/
structure St where
  fs : FS
  trace : List Event
deriving Repr, DecidableEq

/-- Run a list of filesystem operations, recording them in the trace. -/
def St.runOps (s : St) (ops : List FsOp) : St :=
  { fs := s.fs.applyOps ops, trace := s.trace ++ ops.map FsOp.event }

/-- Record a console message. -/
def St.echoMsg (s : St) (m : String) : St :=
  { s with trace := s.trace ++ [.echo m] }

/-- Record an external git command (the embedding models the successful
execution of the git binary; `run_shell` raises on a non-zero exit, which
is controlled by the `gitOk` oracle at the call sites in the core). -/
def St.git (s : St) (args : List String) (cwd : FPath) : St :=
  { s with trace := s.trace ++ [.gitCmd args cwd] }

/-! ### Credential store (`src/sparkstart/utils/common.py`) -/

/-- The per-project credential file name used by `get_project_token` and
`save_project_token`. -/
def credFileName : String := ".sparkstart.env"

/-- Dotenv lookup of `GITHUB_TOKEN` in a file content, defaulting to the
empty string; a later assignment overrides an earlier one. -/
def parseEnvToken (c : String) : String :=
  let hits := (pySplitlines c).filterMap
    (fun l =>
      if "GITHUB_TOKEN=".data.isPrefixOf l.data then
        some (String.mk (l.data.drop 13))
      else none)
  (hits.getLast?).getD ""

/-- `get_project_token`: token from `<root>/.sparkstart.env`, or the empty
string if the file or the key is missing. -/
def get_project_token (fs : FS) (root : FPath) : String :=
  match fs.read (root ++ [credFileName]) with
  | none => ""
  | some c => parseEnvToken c

/-- The filesystem effects of `save_project_token`, as traced operations:
overwrite `<root>/.sparkstart.env` with the token, then append
`.sparkstart.env` to `<root>/.gitignore` unless some line already equals
it. -/
def saveTokenOps (fs : FS) (root : FPath) (token : String) : List FsOp :=
  let envOp := FsOp.writeOp (root ++ [credFileName])
    ("GITHUB_TOKEN=" ++ token ++ "\n")
  let fs1 := fs.applyOp envOp
  let gi : FPath := root ++ [".gitignore"]
  let lines : List String :=
    match fs1.read gi with
    | some c => pySplitlines c
    | none => []
  if credFileName ∈ lines then [envOp]
  else [envOp, FsOp.writeOp gi (pyJoinNl (lines ++ [credFileName]) ++ "\n")]

/-- `save_project_token` from `src/sparkstart/utils/common.py`. -/
def save_project_token (fs : FS) (root : FPath) (token : String) : FS :=
  fs.applyOps (saveTokenOps fs root token)

/-! ### Failures of the orchestration core -/

/-- The failure taxonomy of the orchestration core.  The Python source
raises `FileExistsError` (exclusive `mkdir`), `ValueError` (unknown
language at dispatch), and `RuntimeError` (missing git, missing token,
GitHub API error, non-zero external command, missing directory on
delete); the constructors follow the spec taxonomy (§7). -/
inductive Err where
  | alreadyExists (p : FPath)
  | unknownLanguage (lang : String)
  | gitNotFound
  | missingCredential
  | remoteAPIError (status : Nat) (body : String)
  | processFailure (cmd : List String)
  | notFound (p : FPath)
deriving Repr, DecidableEq

/-! ### Template registry

The spec scopes template bodies out of the orchestration core and treats
them as opaque named blobs selected by key (spec §1, §2.3).  All contents
imported from `sparkstart.templates.*` are therefore fields of this record
(functions of the project name where the source substitutes the name);
theorems quantify over a registry and witnesses use a concrete fixture.
`readmeText`, `newTokenUrl` (from `templates/common.py`) and
`gitignorePython` (from `templates/python.py`) belong to modules that are
not present under `src/`; they are modelled from the spec as opaque blobs
like the rest of the registry. -/

structure Registry where
  readmeText : String → String
  readmeCpp : String → String
  newTokenUrl : String → String
  gitignorePython : String
  devcontainerJson : String
  devcontainerPython : String
  devcontainerRust : String
  devcontainerJavascript : String
  envrcPython : String
  envrcRust : String
  envrcJavascript : String
  envrcCpp : String
  composePython : String
  composeRust : String
  composeJavascript : String
  composeCpp : String
  gettingStarted : String → String → Bool → String
  /-- console lines of `print_project_summary` (presentation layer, spec
  §4.5 step 9); the source signature `(path, lang, devcontainer, github,
  tutorial)` shows it depends on nothing else -/
  summaryLines : String → String → Bool → Bool → Bool → List String
  pythonMainGame : String
  pythonTestsGame : String
  readmePythonTutorial : String → String
  pyprojectTomlTutorial : String → String
  gitignorePythonTutorial : String
  rustMainGame : String
  rustTestsGame : String
  readmeRustTutorial : String → String
  cargoTomlTutorial : String → String
  gitignoreRustTutorial : String
  javascriptMainGame : String
  javascriptTestsGame : String
  readmeJavascriptTutorial : String → String
  packageJsonTutorial : String → String
  gitignoreJavascriptTutorial : String
  cppMainGame : String
  cppTestsGame : String
  readmeCppTutorial : String → String
  cmakeTutorial : String → String
  conanfileTutorial : String
  gitignoreCppTutorial : String
  editorconfigBody : String
  precommitPython : String
  precommitRust : String
  precommitJavascript : String
  precommitCpp : String
  requirementsPythonTools : String
  prettierrcJson : String
  /-- the `package.json` rewrite of `_scaffold_javascript_tools`: parse the
  file, merge the npm lint scripts, re-serialise; `none` models a
  `json.JSONDecodeError`, which the source silently swallows -/
  npmAddScripts : String → Option String
  /-- Modelled from the spec: content of `src/main.rs` for the standard
  rust scaffold (the `scaffolders/rust.py` module is not under `src/`) -/
  mainRs : String
  /-- Modelled from the spec: the rust dependency manifest `Cargo.toml` -/
  cargoToml : String → String
  /-- Modelled from the spec: the rust `.gitignore` -/
  gitignoreRust : String
  /-- Modelled from the spec: content of `src/main.js` for the standard
  javascript scaffold (`scaffolders/javascript.py` is not under `src/`) -/
  mainJs : String
  /-- Modelled from the spec: the javascript manifest `package.json` -/
  packageJson : String → String
  /-- Modelled from the spec: the javascript `.gitignore` -/
  gitignoreJavascript : String
  /-- Modelled from the spec: content of `src/main.cpp` for the standard
  cpp scaffold (`scaffolders/cpp.py` is not under `src/`) -/
  mainCpp : String
  /-- Modelled from the spec: the cpp build manifest `CMakeLists.txt` -/
  cmakeLists : String → String
  /-- Modelled from the spec: the cpp `.gitignore` -/
  gitignoreCpp : String

/-! ### Inline contents of `src/sparkstart/scaffolders/python.py` -/

/-- The standard hello-world `src/main.py` body. -/
def helloMainPy : String :=
  "def hello() -> str:\n    return \"Hello, world!\"\n\nif __name__ == \"__main__\":\n    print(hello())"

/-- The standard `tests/test_main.py` body. -/
def helloTestPy : String :=
  "from src.main import hello\n\ndef test_hello():\n    assert hello() == \"Hello, world!\""

/-- The pygame-template `tests/test_main.py` body. -/
def pygameTestPy : String :=
  "def test_import_pygame():\n    import pygame\n    assert pygame.ver is not None"

/-- The pygame-template `src/main.py` body (the snake-game example). -/
def pygameMainPy : String :=
  "import pygame\nimport sys\nimport random\n\ndef main():\n    pygame.init()\n    clock = pygame.time.Clock()\n    \n    # Constants\n    WIDTH, HEIGHT = 600, 400\n    BLOCK_SIZE = 20\n    WHITE = (255, 255, 255)\n    BLACK = (0, 0, 0)\n    RED = (213, 50, 80)\n    GREEN = (0, 255, 0)\n    \n    screen = pygame.display.set_mode((WIDTH, HEIGHT))\n    pygame.display.set_caption(\x27Sparkstart Snake\x27)\n    \n    # Snake state\n    x1, y1 = WIDTH / 2, HEIGHT / 2\n    x1_change, y1_change = 0, 0\n    snake_list = []\n    length_of_snake = 1\n    \n    # Food\n    foodx = round(random.randrange(0, WIDTH - BLOCK_SIZE) / 20.0) * 20.0\n    foody = round(random.randrange(0, HEIGHT - BLOCK_SIZE) / 20.0) * 20.0\n    \n    while True:\n        for event in pygame.event.get():\n            if event.type == pygame.QUIT:\n                pygame.quit()\n                sys.exit()\n            if event.type == pygame.KEYDOWN:\n                if event.key == pygame.K_LEFT:\n                    x1_change = -BLOCK_SIZE\n                    y1_change = 0\n                elif event.key == pygame.K_RIGHT:\n                    x1_change = BLOCK_SIZE\n                    y1_change = 0\n                elif event.key == pygame.K_UP:\n                    y1_change = -BLOCK_SIZE\n                    x1_change = 0\n                elif event.key == pygame.K_DOWN:\n                    y1_change = BLOCK_SIZE\n                    x1_change = 0\n\n        if x1 >= WIDTH or x1 < 0 or y1 >= HEIGHT or y1 < 0:\n            # Game Over behavior simplified: just reset\n            x1, y1 = WIDTH / 2, HEIGHT / 2\n            x1_change, y1_change = 0, 0\n            snake_list = []\n            length_of_snake = 1\n        \n        x1 += x1_change\n        y1 += y1_change\n        screen.fill(BLACK)\n        \n        pygame.draw.rect(screen, GREEN, [foodx, foody, BLOCK_SIZE, BLOCK_SIZE])\n        \n        snake_head = []\n        snake_head.append(x1)\n        snake_head.append(y1)\n        snake_list.append(snake_head)\n        if len(snake_list) > length_of_snake:\n            del snake_list[0]\n            \n        for x in snake_list:\n            pygame.draw.rect(screen, WHITE, [x[0], x[1], BLOCK_SIZE, BLOCK_SIZE])\n            \n        pygame.display.update()\n        \n        if x1 == foodx and y1 == foody:\n            foodx = round(random.randrange(0, WIDTH - BLOCK_SIZE) / 20.0) * 20.0\n            foody = round(random.randrange(0, HEIGHT - BLOCK_SIZE) / 20.0) * 20.0\n            length_of_snake += 1\n            \n        clock.tick(10)\n\nif __name__ == \"__main__\":\n    main()"

/-- The `pyproject.toml` written by `scaffold_python`. -/
def pythonPyproject (name : String) (template : Option String) : String :=
  let deps :=
    if template = some "pygame" then
      "dependencies = [\"pygame\", \"requests\", \"python-dotenv\"]"
    else
      "dependencies = [\"requests\", \"python-dotenv\"]"
  "[project]\nname = \"" ++ name ++ "\"\nversion = \"0.1.0\"\ndescription = \"\"\nrequires-python = \">=3.8\"\n" ++ deps ++ "\n\n[project.optional-dependencies]\ntest = [\"pytest\"]"

/-! ### Scaffolders (`src/sparkstart/scaffolders/`)

Each scaffolder yields the ordered list of filesystem operations it
performs, with paths relative to the target directory, together with the
error when it raises after part of its effects (the source raises
`ValueError` mid-sequence).  `venv.create(path / ".venv")` is modelled as
the creation of the `.venv` directory subtree. -/

/-- `scaffold_python` from `src/sparkstart/scaffolders/python.py`. -/
def scaffold_python (R : Registry) (name : String) (template : Option String) :
    List FsOp :=
  let main_py := if template = some "pygame" then pygameMainPy else helloMainPy
  let test_main := if template = some "pygame" then pygameTestPy else helloTestPy
  [ .mkdirOp ["src"],
    .writeOp ["src", "__init__.py"] "",
    .writeOp ["src", "main.py"] (main_py ++ "\n"),
    .writeOp [".gitignore"] (R.gitignorePython ++ "\n"),
    .mkdirOp ["tests"],
    .writeOp ["tests", "__init__.py"] "",
    .writeOp ["tests", "test_main.py"] (test_main ++ "\n"),
    .writeOp ["pyproject.toml"] (pythonPyproject name template ++ "\n"),
    .mkdirOp [".venv"] ]

/-- Modelled from the spec: `scaffold_rust` (the module
`scaffolders/rust.py` is not under `src/`; file set per spec §4.4/§8 — a
source tree, a dependency manifest — and the integration-test
declarations: `src/main.rs`, `Cargo.toml`, `tests/`). -/
def scaffold_rust (R : Registry) (name : String) : List FsOp :=
  [ .mkdirOp ["src"],
    .writeOp ["src", "main.rs"] R.mainRs,
    .mkdirOp ["tests"],
    .writeOp ["Cargo.toml"] (R.cargoToml name),
    .writeOp [".gitignore"] R.gitignoreRust ]

/-- Modelled from the spec: `scaffold_javascript` (module not under
`src/`; file set per spec §4.4/§8 and the integration-test declarations:
`src/main.js`, `package.json`, `tests/`). -/
def scaffold_javascript (R : Registry) (name : String) : List FsOp :=
  [ .mkdirOp ["src"],
    .writeOp ["src", "main.js"] R.mainJs,
    .mkdirOp ["tests"],
    .writeOp ["package.json"] (R.packageJson name),
    .writeOp [".gitignore"] R.gitignoreJavascript ]

/-- Modelled from the spec: `scaffold_cpp` (module not under `src/`; file
set per spec §4.4/§8 and the integration-test declarations:
`src/main.cpp`, `CMakeLists.txt`). -/
def scaffold_cpp (R : Registry) (name : String) : List FsOp :=
  [ .mkdirOp ["src"],
    .writeOp ["src", "main.cpp"] R.mainCpp,
    .writeOp ["CMakeLists.txt"] (R.cmakeLists name),
    .writeOp [".gitignore"] R.gitignoreCpp ]

/-- The tutorial-branch dispatch of `create_project` (core.py lines 61-78)
together with the four `scaffold_tutorial_*` bodies from
`src/sparkstart/scaffolders/tutorial.py`: the operations performed and the
error for an unknown language. -/
def tutorialScaffold (R : Registry) (name : String) (lang : String) :
    List FsOp × Option Err :=
  if lang = "python" then
    ([ .mkdirOp ["src"], .mkdirOp ["tests"],
       .writeOp ["src", "main.py"] (R.pythonMainGame ++ "\n"),
       .writeOp ["tests", "__init__.py"] "",
       .writeOp ["tests", "test_main.py"] (R.pythonTestsGame ++ "\n"),
       .writeOp ["README.md"] (R.readmePythonTutorial name ++ "\n"),
       .writeOp ["pyproject.toml"] (R.pyprojectTomlTutorial name ++ "\n"),
       .writeOp [".gitignore"] (R.gitignorePythonTutorial ++ "\n") ], none)
  else if lang = "rust" then
    ([ .mkdirOp ["src"], .mkdirOp ["tests"],
       .writeOp ["src", "main.rs"] (R.rustMainGame ++ "\n"),
       .writeOp ["tests", "integration_test.rs"] (R.rustTestsGame ++ "\n"),
       .writeOp ["README.md"] (R.readmeRustTutorial name ++ "\n"),
       .writeOp ["Cargo.toml"] (R.cargoTomlTutorial name ++ "\n"),
       .writeOp [".gitignore"] (R.gitignoreRustTutorial ++ "\n") ], none)
  else if lang = "javascript" then
    ([ .mkdirOp ["src"], .mkdirOp ["tests"],
       .writeOp ["src", "main.js"] (R.javascriptMainGame ++ "\n"),
       .writeOp ["tests", "main.test.js"] (R.javascriptTestsGame ++ "\n"),
       .writeOp ["README.md"] (R.readmeJavascriptTutorial name ++ "\n"),
       .writeOp ["package.json"] (R.packageJsonTutorial name ++ "\n"),
       .writeOp [".gitignore"] (R.gitignoreJavascriptTutorial ++ "\n") ], none)
  else if lang = "cpp" then
    ([ .mkdirOp ["src"], .mkdirOp ["tests"], .mkdirOp ["build"],
       .writeOp ["src", "main.cpp"] (R.cppMainGame ++ "\n"),
       .writeOp ["tests", "test_main.cpp"] (R.cppTestsGame ++ "\n"),
       .writeOp ["README.md"] (R.readmeCppTutorial name ++ "\n"),
       .writeOp ["CMakeLists.txt"] (R.cmakeTutorial name ++ "\n"),
       .writeOp ["conanfile.txt"] (R.conanfileTutorial ++ "\n"),
       .writeOp [".gitignore"] (R.gitignoreCppTutorial ++ "\n") ], none)
  else ([], some (.unknownLanguage lang))

/-- `scaffold_devcontainer` from `scaffolders/devcontainer.py`: the
`.devcontainer` directory is created before the language lookup, so it
exists even when the lookup raises. -/
def scaffold_devcontainer (R : Registry) (lang : String) :
    List FsOp × Option Err :=
  let tpl : Option String :=
    if lang = "cpp" then some R.devcontainerJson
    else if lang = "python" then some R.devcontainerPython
    else if lang = "rust" then some R.devcontainerRust
    else if lang = "javascript" then some R.devcontainerJavascript
    else none
  match tpl with
  | none => ([.mkdirOp [".devcontainer"]], some (.unknownLanguage lang))
  | some c =>
    ([.mkdirOp [".devcontainer"],
      .writeOp [".devcontainer", "devcontainer.json"] (c ++ "\n")], none)

/-- `scaffold_direnv` from `scaffolders/direnv.py`. -/
def scaffold_direnv (R : Registry) (lang : String) :
    List FsOp × Option Err :=
  let tpl : Option String :=
    if lang = "python" then some R.envrcPython
    else if lang = "rust" then some R.envrcRust
    else if lang = "javascript" then some R.envrcJavascript
    else if lang = "cpp" then some R.envrcCpp
    else none
  match tpl with
  | none => ([], some (.unknownLanguage lang))
  | some c => ([.writeOp [".envrc"] (c ++ "\n")], none)

/-- `scaffold_compose` from `scaffolders/compose.py`. -/
def scaffold_compose (R : Registry) (lang : String) :
    List FsOp × Option Err :=
  let tpl : Option String :=
    if lang = "python" then some R.composePython
    else if lang = "rust" then some R.composeRust
    else if lang = "javascript" then some R.composeJavascript
    else if lang = "cpp" then some R.composeCpp
    else none
  match tpl with
  | none => ([], some (.unknownLanguage lang))
  | some c => ([.writeOp ["compose.yaml"] (c ++ "\n")], none)

/-- The standard (non-tutorial) source-scaffold step of `create_project`
(core.py lines 80-96): a README is written first (the generic text for
every language except cpp — including an unknown one), then the language
scaffolder runs; an unknown language raises after the README write. -/
def standardScaffold (R : Registry) (name : String) (lang : String)
    (template : Option String) : List FsOp × Option Err :=
  let readmeOp : FsOp :=
    if lang = "cpp" then .writeOp ["README.md"] (R.readmeCpp name)
    else .writeOp ["README.md"] (R.readmeText name)
  if lang = "python" then (readmeOp :: scaffold_python R name template, none)
  else if lang = "rust" then (readmeOp :: scaffold_rust R name, none)
  else if lang = "javascript" then (readmeOp :: scaffold_javascript R name, none)
  else if lang = "cpp" then (readmeOp :: scaffold_cpp R name, none)
  else ([readmeOp], some (.unknownLanguage lang))

/-- The source-scaffold step: tutorial branch or standard branch
(core.py lines 60-96). -/
def sourceScaffold (R : Registry) (name : String) (lang : String)
    (template : Option String) (tutorial : Bool) : List FsOp × Option Err :=
  if tutorial then tutorialScaffold R name lang
  else standardScaffold R name lang template

/-! ### Tools scaffolder (`src/sparkstart/scaffolders/tools.py`) -/

/-- Python `str.rstrip()`. -/
def pyRstrip (s : String) : String :=
  String.mk ((s.data.reverse.dropWhile Char.isWhitespace).reverse)

/-- The `pyproject.toml` fragment appended when `[tool.black]` is
missing. -/
def blackFragment : String :=
  "\n\n[tool.black]\nline-length = 100\ntarget-version = [\x27py312\x27]\n"

/-- The `pyproject.toml` fragment appended when `[tool.ruff]` is
missing. -/
def ruffFragment : String :=
  "\n[tool.ruff]\nline-length = 100\ntarget-version = \"py312\"\n"

/-- The `pyproject.toml` fragment appended when `[tool.mypy]` is
missing. -/
def mypyFragment : String :=
  "\n[tool.mypy]\npython_version = \"3.12\"\nwarn_return_any = true\nwarn_unused_configs = true\n"

/-- `_scaffold_python_tools`: extend `requirements-dev.txt` (append or
create) and amend an existing `pyproject.toml` with the missing tool
sections only. -/
def pythonToolsOps (R : Registry) (fs : FS) (root : FPath) : List FsOp :=
  let reqOps : List FsOp :=
    match fs.read (root ++ ["requirements-dev.txt"]) with
    | some c =>
      [.writeOp ["requirements-dev.txt"]
        (pyRstrip c ++ "\n\n# Development Tools\n" ++ R.requirementsPythonTools ++ "\n")]
    | none =>
      [.writeOp ["requirements-dev.txt"] (R.requirementsPythonTools ++ "\n")]
  let pyprojOps : List FsOp :=
    match fs.read (root ++ ["pyproject.toml"]) with
    | some c =>
      let c1 := if ¬ occursIn "[tool.black]" c then c ++ blackFragment else c
      let c2 := if ¬ occursIn "[tool.ruff]" c1 then c1 ++ ruffFragment else c1
      let c3 := if ¬ occursIn "[tool.mypy]" c2 then c2 ++ mypyFragment else c2
      [.writeOp ["pyproject.toml"] c3]
    | none => []
  reqOps ++ pyprojOps

/-- The `rustfmt.toml` content of `_scaffold_rust_tools`. -/
def rustfmtToml : String :=
  "# Rust formatting configuration\nmax_width = 100\ntab_spaces = 4\nedition = \"2021\"\n"

/-- The `clippy.toml` content of `_scaffold_rust_tools`. -/
def clippyToml : String :=
  "# Clippy linting configuration\ntoo-many-arguments-threshold = 8\n"

/-- The `.prettierignore` / `.eslintignore` content of
`_scaffold_javascript_tools`. -/
def jsIgnoreBody : String :=
  "node_modules\ndist\nbuild\n.next\nout\ncoverage\n"

/-- The `.clang-format` content of `_scaffold_cpp_tools`. -/
def clangFormatBody : String :=
  "BasedOnStyle: LLVM\nIndentWidth: 4\nColumnLimit: 100\nUseTab: Never\nTabWidth: 4\nBreakBeforeBraces: Attach\nAllowShortFunctionsOnASingleLine: Empty\nAllowShortIfStatementsOnASingleLine: Never\n"

/-- `_scaffold_javascript_tools`. -/
def javascriptToolsOps (R : Registry) (fs : FS) (root : FPath) : List FsOp :=
  [ .writeOp [".prettierrc"] (R.prettierrcJson ++ "\n"),
    .writeOp [".prettierignore"] jsIgnoreBody,
    .writeOp [".eslintignore"] jsIgnoreBody ]
  ++ match fs.read (root ++ ["package.json"]) with
     | some c =>
       match R.npmAddScripts c with
       | some c2 => [.writeOp ["package.json"] c2]
       | none => []
     | none => []

/-- `_scaffold_precommit_config`: writes `.pre-commit-config.yaml` for the
four known languages and silently writes nothing otherwise. -/
def precommitOps (R : Registry) (lang : String) : List FsOp :=
  let tpl : Option String :=
    if lang = "python" then some R.precommitPython
    else if lang = "rust" then some R.precommitRust
    else if lang = "javascript" then some R.precommitJavascript
    else if lang = "cpp" then some R.precommitCpp
    else none
  match tpl with
  | none => []
  | some c => [.writeOp [".pre-commit-config.yaml"] (c ++ "\n")]

/-- `scaffold_tools` from `src/sparkstart/scaffolders/tools.py`: always
writes `.editorconfig`, then the language-specific configurations (skipped
without error for a language outside the four), then the pre-commit
configuration (likewise skipped for an unknown language). -/
def scaffold_tools (R : Registry) (fs : FS) (root : FPath) (lang : String) :
    List FsOp :=
  [.writeOp [".editorconfig"] (R.editorconfigBody ++ "\n")]
  ++ (if lang = "python" then pythonToolsOps R fs root
      else if lang = "rust" then
        [.writeOp ["rustfmt.toml"] rustfmtToml, .writeOp ["clippy.toml"] clippyToml]
      else if lang = "javascript" then javascriptToolsOps R fs root
      else if lang = "cpp" then [.writeOp [".clang-format"] clangFormatBody]
      else [])
  ++ precommitOps R lang

/-! ### External collaborators and the orchestrator (`src/sparkstart/core.py`) -/

/-- The external world of one invocation: process environment, binaries on
the `PATH`, the interactive context, and the responses of the GitHub API.
`interactive` is the capability flag of spec §9: when false the prompt
path of the lazy `typer` import is unavailable and credential resolution
fails fast with `MissingCredential`. -/
structure Ext where
  /-- `$GITHUB_TOKEN`, the empty string when unset -/
  envToken : String
  /-- `shutil.which("git")` finds the git binary -/
  gitOnPath : Bool
  /-- `shutil.which("docker")` finds the docker binary -/
  dockerOnPath : Bool
  /-- an interactive prompt can be shown -/
  interactive : Bool
  /-- the token the user would paste at the prompt -/
  promptToken : String
  /-- the invoked git commands exit with status zero -/
  gitOk : Bool
  /-- response of `GET /user`: login, or status and body of a failure -/
  userLogin : Except (Nat × String) String
  /-- response of `POST /user/repos`: clone URL, or status and body -/
  createRepo : Except (Nat × String) String
  /-- response of `DELETE /repos/...`: unit, or status and body -/
  deleteRepo : Except (Nat × String) Unit

/-- The result of an orchestrator invocation: the final filesystem, the
event trace, and the failure it raised, if any. -/
structure Outcome where
  fs : FS
  trace : List Event
  err : Option Err
deriving Repr, DecidableEq

/-- `path.name`: the last segment of a path. -/
def pathName (p : FPath) : String := (p.getLast?).getD ""

/-- The file-then-environment part of token resolution shared by both
orchestrators: `get_project_token(path) or os.getenv("GITHUB_TOKEN")`. -/
def fileEnvToken (ext : Ext) (fs : FS) (path : FPath) : String :=
  let t0 := get_project_token fs path
  if t0 ≠ "" then t0 else ext.envToken

/-- `get_github_user` from `src/sparkstart/utils/github.py`. -/
def get_github_user (ext : Ext) : Except Err String :=
  match ext.userLogin with
  | .error (st, body) => .error (.remoteAPIError st body)
  | .ok login => .ok login

/-- `create_github_repo` from `src/sparkstart/utils/github.py`: the token
falls back to `$GITHUB_TOKEN`, a still-missing token is a failure distinct
from (and prior to) any API error; returns the request events and the
clone URL. -/
def create_github_repo (ext : Ext) (token : String) :
    List Event × Except Err String :=
  let tok := if token ≠ "" then token else ext.envToken
  if tok = "" then ([], .error .missingCredential)
  else
    match ext.createRepo with
    | .error (st, body) =>
      ([.httpReq "POST" "https://api.github.com/user/repos"],
       .error (.remoteAPIError st body))
    | .ok url => ([.httpReq "POST" "https://api.github.com/user/repos"], .ok url)

/-- The authenticated push URL of core.py line 139:
`repo_url.replace("https://", "https://TOKEN@", 1)`. -/
def authRepoUrl (repoUrl token : String) : String :=
  pyReplaceFirst repoUrl "https://" ("https://" ++ token ++ "@")

/-- One `run_shell` git invocation: the command event is recorded, and a
non-zero exit (oracle `gitOk`) is the `ProcessFailure` of the spec. -/
def gitStep (ext : Ext) (s : St) (args : List String) (cwd : FPath) :
    St × Option Err :=
  ({ s with trace := s.trace ++ [.gitCmd args cwd] },
   if ext.gitOk then none else some (.processFailure args))

/-- The docker warning of core.py lines 100-105. -/
def dockerWarning : String :=
  "WARNING: Docker not found. You need Docker to use Dev Containers."

/-- The console message before the browser is opened (core.py line 125). -/
def openingTokenMsg : String :=
  "Opening GitHub to generate a token..."

/-- The prompt text of core.py lines 127-129. -/
def pasteTokenMsg : String :=
  "Paste your new GitHub token here (saved to .projinit.env, never committed)"

/-- `create_project` from `src/sparkstart/core.py`.  Parameters mirror the
source signature `(path, github, lang, devcontainer, template, tutorial)`
— the CLI option `tools` has no counterpart here, exactly as in the
source.  The non-interactive arm of the credential step is the capability
reading of spec §4.2/§9 (prompt unavailable → `MissingCredential`); every
other branch follows the source line by line. -/
def create_project (R : Registry) (ext : Ext) (fs0 : FS) (path : FPath)
    (github : Bool) (lang : String) (devcontainer : Bool)
    (template : Option String) (tutorial : Bool) : Outcome :=
  -- step 1: exclusive directory creation
  if fs0.existsPath path then ⟨fs0, [], some (.alreadyExists path)⟩ else
  let name := pathName path
  let s0 : St := St.runOps ⟨fs0, []⟩ [.mkdirOp path]
  -- step 2: source scaffold (tutorial or standard)
  let src := sourceScaffold R name lang template tutorial
  let s1 := s0.runOps (src.1.map (FsOp.under path))
  match src.2 with
  | some e => ⟨s1.fs, s1.trace, some e⟩
  | none =>
    -- step 3: devcontainer + supporting configs
    let dev : St × Option Err :=
      if devcontainer then
        let s2 := if ext.dockerOnPath then s1 else s1.echoMsg dockerWarning
        let d := scaffold_devcontainer R lang
        let s3 := s2.runOps (d.1.map (FsOp.under path))
        match d.2 with
        | some e => (s3, some e)
        | none =>
          let dr := scaffold_direnv R lang
          let s4 := s3.runOps (dr.1.map (FsOp.under path))
          match dr.2 with
          | some e => (s4, some e)
          | none =>
            let co := scaffold_compose R lang
            (s4.runOps (co.1.map (FsOp.under path)), co.2)
      else (s1, none)
    match dev with
    | (s5, some e) => ⟨s5.fs, s5.trace, some e⟩
    | (s5, none) =>
      -- step 4: educational documentation
      let s6 := s5.runOps
        [.writeOp (path ++ ["GETTING_STARTED.md"])
          (R.gettingStarted name lang devcontainer ++ "\n")]
      -- step 5: the git binary must be present
      if ¬ ext.gitOnPath then ⟨s6.fs, s6.trace, some .gitNotFound⟩ else
      -- step 6: token resolution (github only)
      let tok : St × Except Err String :=
        if github then
          if fileEnvToken ext s6.fs path = "" then
            if ext.interactive then
              let s7 := (s6.echoMsg openingTokenMsg)
              let s7 := { s7 with
                trace := s7.trace ++ [Event.browserOpen (R.newTokenUrl name)] }
              let s7 := s7.echoMsg pasteTokenMsg
              (s7.runOps (saveTokenOps s7.fs path ext.promptToken),
               .ok ext.promptToken)
            else (s6, .error .missingCredential)
          else (s6, .ok (fileEnvToken ext s6.fs path))
        else (s6, .ok "")
      match tok with
      | (s7, .error e) => ⟨s7.fs, s7.trace, some e⟩
      | (s7, .ok token) =>
        -- step 7: local git init / add / commit
        let finish : St → Outcome := fun s =>
          ⟨s.fs,
           s.trace ++ (R.summaryLines name lang devcontainer github tutorial).map
             Event.echo,
           none⟩
        let g1 := gitStep ext s7 ["git", "init", "-b", "main"] path
        match g1.2 with
        | some e => ⟨g1.1.fs, g1.1.trace, some e⟩
        | none =>
          -- the git binary materialises the repository state below .git
          let s8 : St := { g1.1 with fs := g1.1.fs.mkdirFs (path ++ [".git"]) }
          let g2 := gitStep ext s8 ["git", "add", "."] path
          match g2.2 with
          | some e => ⟨g2.1.fs, g2.1.trace, some e⟩
          | none =>
            let g3 := gitStep ext g2.1 ["git", "commit", "-m", "Initial commit"] path
            match g3.2 with
            | some e => ⟨g3.1.fs, g3.1.trace, some e⟩
            | none =>
              let s9 := g3.1
              -- step 8: remote creation + push (github only)
              if github then
                let cr := create_github_repo ext token
                let s10 : St := { s9 with trace := s9.trace ++ cr.1 }
                match cr.2 with
                | .error e => ⟨s10.fs, s10.trace, some e⟩
                | .ok repo_url =>
                  let auth := authRepoUrl repo_url token
                  let g4 := gitStep ext s10
                    ["git", "remote", "add", "origin", auth] path
                  match g4.2 with
                  | some e => ⟨g4.1.fs, g4.1.trace, some e⟩
                  | none =>
                    let g5 := gitStep ext g4.1
                      ["git", "push", "-u", "origin", "main"] path
                    match g5.2 with
                    | some e => ⟨g5.1.fs, g5.1.trace, some e⟩
                    | none => finish g5.1
              else finish s9

/-- `delete_project` from `src/sparkstart/core.py`: existence check, then
(github only) token resolution restricted to file and environment, user
lookup, remote deletion, and finally — only after remote success or when
no remote work was requested — unconditional local removal. -/
def delete_project (ext : Ext) (fs0 : FS) (path : FPath) (github : Bool) :
    Outcome :=
  if ¬ fs0.existsPath path then ⟨fs0, [], some (.notFound path)⟩ else
  if github then
    if fileEnvToken ext fs0 path = "" then ⟨fs0, [], some .missingCredential⟩
    else
      let getEv : Event := .httpReq "GET" "https://api.github.com/user"
      match get_github_user ext with
      | .error e => ⟨fs0, [getEv], some e⟩
      | .ok owner =>
        let delEv : Event := .httpReq "DELETE"
          ("https://api.github.com/repos/" ++ owner ++ "/" ++ pathName path)
        match ext.deleteRepo with
        | .error (st, body) =>
          ⟨fs0, [getEv, delEv], some (.remoteAPIError st body)⟩
        | .ok _ => ⟨fs0.rmtree path, [getEv, delEv], none⟩
  else ⟨fs0.rmtree path, [], none⟩

/-! ### Concrete fixtures

A small concrete registry and external world used to instantiate the
quantified theorems on explicit inputs. -/

/-- A concrete template-registry fixture with short distinct bodies. -/
def sampleRegistry : Registry where
  readmeText := fun n => "# " ++ n ++ "\n\nProject initialized by sparkstart.\n"
  readmeCpp := fun n => "# " ++ n ++ "\n\nA cpp project.\n"
  newTokenUrl := fun n => "https://github.com/settings/tokens/new?description=" ++ n
  gitignorePython := "__pycache__/\n.venv/\n*.pyc"
  devcontainerJson := "devcontainer body cpp"
  devcontainerPython := "devcontainer body python"
  devcontainerRust := "devcontainer body rust"
  devcontainerJavascript := "devcontainer body javascript"
  envrcPython := "envrc body python"
  envrcRust := "envrc body rust"
  envrcJavascript := "envrc body javascript"
  envrcCpp := "envrc body cpp"
  composePython := "compose body python"
  composeRust := "compose body rust"
  composeJavascript := "compose body javascript"
  composeCpp := "compose body cpp"
  gettingStarted := fun n lang dc =>
    "Getting started with " ++ n ++ " in " ++ lang ++
      (if dc then " using a devcontainer" else "")
  summaryLines := fun n lang _ _ _ =>
    ["Project " ++ n ++ " created successfully", "language: " ++ lang]
  pythonMainGame := "python game body"
  pythonTestsGame := "python game checks"
  readmePythonTutorial := fun n => "# " ++ n ++ " python game"
  pyprojectTomlTutorial := fun n => "[project]\nname = \"" ++ n ++ "\""
  gitignorePythonTutorial := "__pycache__/"
  rustMainGame := "rust game body"
  rustTestsGame := "rust game checks"
  readmeRustTutorial := fun n => "# " ++ n ++ " rust game"
  cargoTomlTutorial := fun n => "[package]\nname = \"" ++ n ++ "\""
  gitignoreRustTutorial := "target/"
  javascriptMainGame := "javascript game body"
  javascriptTestsGame := "javascript game checks"
  readmeJavascriptTutorial := fun n => "# " ++ n ++ " javascript game"
  packageJsonTutorial := fun n => "package json for " ++ n
  gitignoreJavascriptTutorial := "node_modules/"
  cppMainGame := "cpp game body"
  cppTestsGame := "cpp game checks"
  readmeCppTutorial := fun n => "# " ++ n ++ " cpp game"
  cmakeTutorial := fun n => "cmake_minimum_required for " ++ n
  conanfileTutorial := "[requires]"
  gitignoreCppTutorial := "build/"
  editorconfigBody := "root = true"
  precommitPython := "precommit body python"
  precommitRust := "precommit body rust"
  precommitJavascript := "precommit body javascript"
  precommitCpp := "precommit body cpp"
  requirementsPythonTools := "black\nruff\nmypy"
  prettierrcJson := "prettier config body"
  npmAddScripts := fun c => some (c ++ "\nwith lint scripts")
  mainRs := "fn main() -\x3e () \x7b \x7d\n"
  cargoToml := fun n => "[package]\nname = \"" ++ n ++ "\"\n"
  gitignoreRust := "target/\n"
  mainJs := "console.log(1);\n"
  packageJson := fun n => "package json for " ++ n ++ "\n"
  gitignoreJavascript := "node_modules/\n"
  mainCpp := "int main() \x7b return 0; \x7d\n"
  cmakeLists := fun n => "cmake_minimum_required; project " ++ n ++ "\n"
  gitignoreCpp := "build/\n"

/-- A concrete external-world fixture: token in the environment, binaries
present, git succeeds, GitHub answers successfully. -/
def sampleExt : Ext where
  envToken := "tok123"
  gitOnPath := true
  dockerOnPath := true
  interactive := false
  promptToken := ""
  gitOk := true
  userLogin := .ok "alice"
  createRepo := .ok "https://github.com/alice/demo1.git"
  deleteRepo := .ok ()

/-! ### Shape of a `create_project` run

The following definitions restate the filesystem operations and the trace
of a `create_project` invocation as explicit concatenations; the master
lemmas below prove that a run that did not fail (and the prefix of a run
that failed at credential resolution) equals this shape. -/

/-- The three auxiliary scaffolds of a devcontainer run, in order
(empty when the flag is off). -/
def devcontainerOps (R : Registry) (lang : String) (dc : Bool) : List FsOp :=
  if dc then
    (scaffold_devcontainer R lang).1 ++ (scaffold_direnv R lang).1
      ++ (scaffold_compose R lang).1
  else []

/-- The unconditional getting-started-guide write. -/
def guideOp (R : Registry) (path : FPath) (lang : String) (dc : Bool) : FsOp :=
  .writeOp (path ++ ["GETTING_STARTED.md"])
    (R.gettingStarted (pathName path) lang dc ++ "\n")

/-- All filesystem operations up to and including the documentation step
(steps 1-4 of `create_project`). -/
def preOps (R : Registry) (path : FPath) (lang : String) (dc : Bool)
    (template : Option String) (tutorial : Bool) : List FsOp :=
  FsOp.mkdirOp path
    :: ((sourceScaffold R (pathName path) lang template tutorial).1.map
      (FsOp.under path)
    ++ (devcontainerOps R lang dc).map (FsOp.under path)
    ++ [guideOp R path lang dc])

/-- The filesystem visible at the credential-resolution step. -/
def fsAtToken (R : Registry) (fs0 : FS) (path : FPath) (lang : String)
    (dc : Bool) (template : Option String) (tutorial : Bool) : FS :=
  fs0.applyOps (preOps R path lang dc template tutorial)

/-- The token the orchestrator variable `token` holds after a successful
credential resolution (file, then environment, then prompt). -/
def resolvedToken (ext : Ext) (fsG : FS) (path : FPath) (github : Bool) :
    String :=
  if github then
    if fileEnvToken ext fsG path = "" then ext.promptToken
    else fileEnvToken ext fsG path
  else ""

/-- The filesystem operations of the credential-resolution step (the
prompt path persists the pasted token). -/
def tokenOps (ext : Ext) (fsG : FS) (path : FPath) (github : Bool) :
    List FsOp :=
  if github then
    if fileEnvToken ext fsG path = "" then saveTokenOps fsG path ext.promptToken
    else []
  else []

/-- The console/browser/file events of the credential-resolution step. -/
def tokenEvents (R : Registry) (ext : Ext) (fsG : FS) (path : FPath)
    (github : Bool) : List Event :=
  if github then
    if fileEnvToken ext fsG path = "" then
      [.echo openingTokenMsg, .browserOpen (R.newTokenUrl (pathName path)),
       .echo pasteTokenMsg]
        ++ (saveTokenOps fsG path ext.promptToken).map FsOp.event
    else []
  else []

/-- All filesystem operations of a successful run: the pre-operations,
the credential-step writes, and the `.git` subtree of `git init`. -/
def successOps (R : Registry) (ext : Ext) (fs0 : FS) (path : FPath)
    (github : Bool) (lang : String) (dc : Bool) (template : Option String)
    (tutorial : Bool) : List FsOp :=
  let fsG := fsAtToken R fs0 path lang dc template tutorial
  preOps R path lang dc template tutorial
    ++ tokenOps ext fsG path github
    ++ [.mkdirOp (path ++ [".git"])]

/-- The trace up to and including the documentation step. -/
def preTrace (R : Registry) (ext : Ext) (path : FPath) (lang : String)
    (dc : Bool) (template : Option String) (tutorial : Bool) : List Event :=
  Event.mkdirEv path
    :: (((sourceScaffold R (pathName path) lang template tutorial).1.map
      (FsOp.under path)).map FsOp.event
    ++ (if dc then
          (if ext.dockerOnPath then [] else [.echo dockerWarning])
            ++ ((devcontainerOps R lang true).map (FsOp.under path)).map
              FsOp.event
        else [])
    ++ [(guideOp R path lang dc).event])

/-- The remote-creation and push events of a successful github run. -/
def remoteEvents (ext : Ext) (path : FPath) (token : String) : List Event :=
  .httpReq "POST" "https://api.github.com/user/repos"
    :: (match ext.createRepo with
        | .ok url =>
          [.gitCmd ["git", "remote", "add", "origin", authRepoUrl url token]
             path,
           .gitCmd ["git", "push", "-u", "origin", "main"] path]
        | .error _ => [])

/-- The full trace of a successful run. -/
def successTrace (R : Registry) (ext : Ext) (fs0 : FS) (path : FPath)
    (github : Bool) (lang : String) (dc : Bool) (template : Option String)
    (tutorial : Bool) : List Event :=
  let fsG := fsAtToken R fs0 path lang dc template tutorial
  preTrace R ext path lang dc template tutorial
    ++ tokenEvents R ext fsG path github
    ++ [.gitCmd ["git", "init", "-b", "main"] path,
        .gitCmd ["git", "add", "."] path,
        .gitCmd ["git", "commit", "-m", "Initial commit"] path]
    ++ (if github then remoteEvents ext path (resolvedToken ext fsG path github)
        else [])
    ++ (R.summaryLines (pathName path) lang dc github tutorial).map Event.echo

/-- `True` exactly for git-command events. -/
def Event.isGitCmd : Event → Bool
  | .gitCmd _ _ => true
  | _ => false

/-- The event carries the string `u` somewhere in its payload: in a written
file content, a console message, a git argument, a request or browser URL.
Used to trace where the authenticated clone URL can surface. -/
def Event.mentions (u : String) : Event → Bool
  | .mkdirEv _ => false
  | .fileWrite _ c => segOf u.data c.data
  | .gitCmd args _ => args.any (fun a => segOf u.data a.data)
  | .echo m => segOf u.data m.data
  | .httpReq _ target => segOf u.data target.data
  | .browserOpen target => segOf u.data target.data
  | .venvCreate _ => false

/-- The target path of an operation. -/
def FsOp.opPath : FsOp → FPath
  | .mkdirOp p => p
  | .writeOp p _ => p

/-- The number of ignore-rule lines for the credential file in the
project ignore file. -/
def ignoreCount (fs : FS) (root : FPath) : Nat :=
  match fs.read (root ++ [".gitignore"]) with
  | none => 0
  | some c => (pySplitlines c).count credFileName

/-- The content of the project ignore file after one `save_project_token`,
as a function of the prior content (shape description used to reason about
repeated saves). -/
def savedGiContent (fs : FS) (root : FPath) : Option String :=
  match fs.read (root ++ [".gitignore"]) with
  | none => some (pyJoinNl [credFileName] ++ "\n")
  | some c =>
    if credFileName ∈ pySplitlines c then some c
    else some (pyJoinNl (pySplitlines c ++ [credFileName]) ++ "\n")

/-! ## Lemmas -/

theorem applyOps_nil (fs : FS) : fs.applyOps [] = fs := rfl

theorem applyOps_cons (fs : FS) (op : FsOp) (ops : List FsOp) :
    fs.applyOps (op :: ops) = (fs.applyOp op).applyOps ops := rfl

theorem applyOps_append (fs : FS) (a b : List FsOp) :
    fs.applyOps (a ++ b) = (fs.applyOps a).applyOps b :=
  List.foldl_append _ _ _ _

theorem runOps_fs (s : St) (ops : List FsOp) :
    (s.runOps ops).fs = s.fs.applyOps ops := rfl

theorem runOps_trace (s : St) (ops : List FsOp) :
    (s.runOps ops).trace = s.trace ++ ops.map FsOp.event := rfl

theorem dirs_applyOp (fs : FS) (op : FsOp) :
    (fs.applyOp op).dirs =
      fs.dirs ++ (match op with | .mkdirOp p => [p] | .writeOp _ _ => []) := by
  cases op <;> simp [FS.applyOp, FS.mkdirFs, FS.write]

theorem files_applyOp_mkdir (fs : FS) (p : FPath) :
    (fs.applyOp (.mkdirOp p)).files = fs.files := rfl

theorem files_applyOp_write (fs : FS) (p : FPath) (c : String) :
    (fs.applyOp (.writeOp p c)).files =
      fs.files.filter (fun f => ¬ f.1 = p) ++ [(p, c)] := rfl

set_option maxHeartbeats 2000000 in
/-- Every `create_project` run either raised a failure or is exactly the
success shape: the filesystem is `successOps` applied to the initial state
and the trace is `successTrace`. -/
theorem create_shape (R : Registry) (ext : Ext) (fs0 : FS)
    (path : FPath) (github : Bool) (lang : String) (dc : Bool)
    (template : Option String) (tutorial : Bool) :
    (create_project R ext fs0 path github lang dc template tutorial).err
        ≠ none ∨
      create_project R ext fs0 path github lang dc template tutorial =
        ⟨fs0.applyOps
           (successOps R ext fs0 path github lang dc template tutorial),
         successTrace R ext fs0 path github lang dc template tutorial,
         none⟩ := by
  by_cases hex : fs0.existsPath path = true
  · exact Or.inl (by simp [create_project, hex])
  rcases hsrc : (sourceScaffold R (pathName path) lang template tutorial).2
    with _ | e
  swap
  · exact Or.inl (by simp [create_project, hex, hsrc])
  cases dc
  · -- devcontainer flag off
    by_cases hgp : ext.gitOnPath = true
    swap
    · exact Or.inl (by simp [create_project, *])
    cases github
    · -- no remote requested
      cases hgo : ext.gitOk
      · exact Or.inl (by
            simp [create_project, create_github_repo, gitStep, St.runOps,
              St.echoMsg, FS.applyOps, FS.applyOp, FsOp.event, List.foldl_append,
              List.append_assoc, *])
      · refine Or.inr ?_
        simp [create_project, successOps, successTrace, preOps, preTrace,
            tokenOps, tokenEvents, remoteEvents, resolvedToken, fsAtToken,
            devcontainerOps, guideOp, St.runOps, St.echoMsg, gitStep,
            create_github_repo, FS.applyOps, FS.applyOp, FsOp.event,
            List.foldl_append, List.append_assoc, *]
    · -- remote requested
      by_cases ht : fileEnvToken ext
          (fsAtToken R fs0 path lang false template tutorial) path = ""
      swap
      · -- token found in file or environment
        simp [fsAtToken, preOps, devcontainerOps, guideOp, FS.applyOps,
            FS.applyOp, FsOp.event, List.foldl_append, List.append_assoc, *] at ht
        cases hgo : ext.gitOk
        · exact Or.inl (by
              simp [create_project, create_github_repo, gitStep, St.runOps,
                St.echoMsg, FS.applyOps, FS.applyOp, FsOp.event, List.foldl_append,
                List.append_assoc, *])
        rcases hcr : ext.createRepo with st_body | url
        · exact Or.inl (by
              simp [create_project, create_github_repo, gitStep, St.runOps,
                St.echoMsg, FS.applyOps, FS.applyOp, FsOp.event, List.foldl_append,
                List.append_assoc, *])
        refine Or.inr ?_
        simp [create_project, successOps, successTrace, preOps, preTrace,
            tokenOps, tokenEvents, remoteEvents, resolvedToken, fsAtToken,
            devcontainerOps, guideOp, St.runOps, St.echoMsg, gitStep,
            create_github_repo, FS.applyOps, FS.applyOp, FsOp.event,
            List.foldl_append, List.append_assoc, *]
      -- no token on disk or in the environment: prompt path
      simp [fsAtToken, preOps, devcontainerOps, guideOp, FS.applyOps,
          FS.applyOp, FsOp.event, List.foldl_append, List.append_assoc, *] at ht
      by_cases hint : ext.interactive = true
      swap
      · exact Or.inl (by
            simp [create_project, create_github_repo, gitStep, St.runOps,
              St.echoMsg, FS.applyOps, FS.applyOp, FsOp.event, List.foldl_append,
              List.append_assoc, *])
      cases hgo : ext.gitOk
      · exact Or.inl (by
            simp [create_project, create_github_repo, gitStep, St.runOps,
              St.echoMsg, FS.applyOps, FS.applyOp, FsOp.event, List.foldl_append,
              List.append_assoc, *])
      by_cases hpt :
          (if ext.promptToken = "" then ext.envToken else ext.promptToken) = ""
      · exact Or.inl (by
            simp [create_project, create_github_repo, gitStep, St.runOps,
              St.echoMsg, FS.applyOps, FS.applyOp, FsOp.event, List.foldl_append,
              List.append_assoc, *])
      rcases hcr : ext.createRepo with st_body | url
      · exact Or.inl (by
            simp [create_project, create_github_repo, gitStep, St.runOps,
              St.echoMsg, FS.applyOps, FS.applyOp, FsOp.event, List.foldl_append,
              List.append_assoc, *])
      refine Or.inr ?_
      simp [create_project, successOps, successTrace, preOps, preTrace,
          tokenOps, tokenEvents, remoteEvents, resolvedToken, fsAtToken,
          devcontainerOps, guideOp, St.runOps, St.echoMsg, gitStep,
          create_github_repo, FS.applyOps, FS.applyOp, FsOp.event,
          List.foldl_append, List.append_assoc, *]
  · -- devcontainer flag on
    rcases hdev : (scaffold_devcontainer R lang).2 with _ | e₁
    swap
    · exact Or.inl (by simp [create_project, *])
    rcases hdr : (scaffold_direnv R lang).2 with _ | e₂
    swap
    · exact Or.inl (by simp [create_project, *])
    rcases hco : (scaffold_compose R lang).2 with _ | e₃
    swap
    · exact Or.inl (by simp [create_project, *])
    cases hdock : ext.dockerOnPath
    · -- docker missing: advisory warning only
      by_cases hgp : ext.gitOnPath = true
      swap
      · exact Or.inl (by simp [create_project, *])
      cases github
      · -- no remote requested
        cases hgo : ext.gitOk
        · exact Or.inl (by
              simp [create_project, create_github_repo, gitStep, St.runOps,
                St.echoMsg, FS.applyOps, FS.applyOp, FsOp.event, List.foldl_append,
                List.append_assoc, *])
        · refine Or.inr ?_
          simp [create_project, successOps, successTrace, preOps, preTrace,
              tokenOps, tokenEvents, remoteEvents, resolvedToken, fsAtToken,
              devcontainerOps, guideOp, St.runOps, St.echoMsg, gitStep,
              create_github_repo, FS.applyOps, FS.applyOp, FsOp.event,
              List.foldl_append, List.append_assoc, *]
      · -- remote requested
        by_cases ht : fileEnvToken ext
            (fsAtToken R fs0 path lang true template tutorial) path = ""
        swap
        · -- token found in file or environment
          simp [fsAtToken, preOps, devcontainerOps, guideOp, FS.applyOps,
              FS.applyOp, FsOp.event, List.foldl_append, List.append_assoc, *] at ht
          cases hgo : ext.gitOk
          · exact Or.inl (by
                simp [create_project, create_github_repo, gitStep, St.runOps,
                  St.echoMsg, FS.applyOps, FS.applyOp, FsOp.event, List.foldl_append,
                  List.append_assoc, *])
          rcases hcr : ext.createRepo with st_body | url
          · exact Or.inl (by
                simp [create_project, create_github_repo, gitStep, St.runOps,
                  St.echoMsg, FS.applyOps, FS.applyOp, FsOp.event, List.foldl_append,
                  List.append_assoc, *])
          refine Or.inr ?_
          simp [create_project, successOps, successTrace, preOps, preTrace,
              tokenOps, tokenEvents, remoteEvents, resolvedToken, fsAtToken,
              devcontainerOps, guideOp, St.runOps, St.echoMsg, gitStep,
              create_github_repo, FS.applyOps, FS.applyOp, FsOp.event,
              List.foldl_append, List.append_assoc, *]
        -- no token on disk or in the environment: prompt path
        simp [fsAtToken, preOps, devcontainerOps, guideOp, FS.applyOps,
            FS.applyOp, FsOp.event, List.foldl_append, List.append_assoc, *] at ht
        by_cases hint : ext.interactive = true
        swap
        · exact Or.inl (by
              simp [create_project, create_github_repo, gitStep, St.runOps,
                St.echoMsg, FS.applyOps, FS.applyOp, FsOp.event, List.foldl_append,
                List.append_assoc, *])
        cases hgo : ext.gitOk
        · exact Or.inl (by
              simp [create_project, create_github_repo, gitStep, St.runOps,
                St.echoMsg, FS.applyOps, FS.applyOp, FsOp.event, List.foldl_append,
                List.append_assoc, *])
        by_cases hpt :
            (if ext.promptToken = "" then ext.envToken else ext.promptToken) = ""
        · exact Or.inl (by
              simp [create_project, create_github_repo, gitStep, St.runOps,
                St.echoMsg, FS.applyOps, FS.applyOp, FsOp.event, List.foldl_append,
                List.append_assoc, *])
        rcases hcr : ext.createRepo with st_body | url
        · exact Or.inl (by
              simp [create_project, create_github_repo, gitStep, St.runOps,
                St.echoMsg, FS.applyOps, FS.applyOp, FsOp.event, List.foldl_append,
                List.append_assoc, *])
        refine Or.inr ?_
        simp [create_project, successOps, successTrace, preOps, preTrace,
            tokenOps, tokenEvents, remoteEvents, resolvedToken, fsAtToken,
            devcontainerOps, guideOp, St.runOps, St.echoMsg, gitStep,
            create_github_repo, FS.applyOps, FS.applyOp, FsOp.event,
            List.foldl_append, List.append_assoc, *]
    · -- docker present
      by_cases hgp : ext.gitOnPath = true
      swap
      · exact Or.inl (by simp [create_project, *])
      cases github
      · -- no remote requested
        cases hgo : ext.gitOk
        · exact Or.inl (by
              simp [create_project, create_github_repo, gitStep, St.runOps,
                St.echoMsg, FS.applyOps, FS.applyOp, FsOp.event, List.foldl_append,
                List.append_assoc, *])
        · refine Or.inr ?_
          simp [create_project, successOps, successTrace, preOps, preTrace,
              tokenOps, tokenEvents, remoteEvents, resolvedToken, fsAtToken,
              devcontainerOps, guideOp, St.runOps, St.echoMsg, gitStep,
              create_github_repo, FS.applyOps, FS.applyOp, FsOp.event,
              List.foldl_append, List.append_assoc, *]
      · -- remote requested
        by_cases ht : fileEnvToken ext
            (fsAtToken R fs0 path lang true template tutorial) path = ""
        swap
        · -- token found in file or environment
          simp [fsAtToken, preOps, devcontainerOps, guideOp, FS.applyOps,
              FS.applyOp, FsOp.event, List.foldl_append, List.append_assoc, *] at ht
          cases hgo : ext.gitOk
          · exact Or.inl (by
                simp [create_project, create_github_repo, gitStep, St.runOps,
                  St.echoMsg, FS.applyOps, FS.applyOp, FsOp.event, List.foldl_append,
                  List.append_assoc, *])
          rcases hcr : ext.createRepo with st_body | url
          · exact Or.inl (by
                simp [create_project, create_github_repo, gitStep, St.runOps,
                  St.echoMsg, FS.applyOps, FS.applyOp, FsOp.event, List.foldl_append,
                  List.append_assoc, *])
          refine Or.inr ?_
          simp [create_project, successOps, successTrace, preOps, preTrace,
              tokenOps, tokenEvents, remoteEvents, resolvedToken, fsAtToken,
              devcontainerOps, guideOp, St.runOps, St.echoMsg, gitStep,
              create_github_repo, FS.applyOps, FS.applyOp, FsOp.event,
              List.foldl_append, List.append_assoc, *]
        -- no token on disk or in the environment: prompt path
        simp [fsAtToken, preOps, devcontainerOps, guideOp, FS.applyOps,
            FS.applyOp, FsOp.event, List.foldl_append, List.append_assoc, *] at ht
        by_cases hint : ext.interactive = true
        swap
        · exact Or.inl (by
              simp [create_project, create_github_repo, gitStep, St.runOps,
                St.echoMsg, FS.applyOps, FS.applyOp, FsOp.event, List.foldl_append,
                List.append_assoc, *])
        cases hgo : ext.gitOk
        · exact Or.inl (by
              simp [create_project, create_github_repo, gitStep, St.runOps,
                St.echoMsg, FS.applyOps, FS.applyOp, FsOp.event, List.foldl_append,
                List.append_assoc, *])
        by_cases hpt :
            (if ext.promptToken = "" then ext.envToken else ext.promptToken) = ""
        · exact Or.inl (by
              simp [create_project, create_github_repo, gitStep, St.runOps,
                St.echoMsg, FS.applyOps, FS.applyOp, FsOp.event, List.foldl_append,
                List.append_assoc, *])
        rcases hcr : ext.createRepo with st_body | url
        · exact Or.inl (by
              simp [create_project, create_github_repo, gitStep, St.runOps,
                St.echoMsg, FS.applyOps, FS.applyOp, FsOp.event, List.foldl_append,
                List.append_assoc, *])
        refine Or.inr ?_
        simp [create_project, successOps, successTrace, preOps, preTrace,
            tokenOps, tokenEvents, remoteEvents, resolvedToken, fsAtToken,
            devcontainerOps, guideOp, St.runOps, St.echoMsg, gitStep,
            create_github_repo, FS.applyOps, FS.applyOp, FsOp.event,
            List.foldl_append, List.append_assoc, *]

set_option maxHeartbeats 1000000 in
/-- A github-flagged `create_project` run that reaches credential
resolution with no file or environment token and no interactive context
stops with `MissingCredential`: the filesystem holds exactly the
pre-operations (scaffold and documentation), the trace holds no git, HTTP
or browser event, and no prompt was shown. -/
theorem create_missing_credential (R : Registry) (ext : Ext) (fs0 : FS)
    (path : FPath) (lang : String) (dc : Bool) (template : Option String)
    (tutorial : Bool)
    (hex : fs0.existsPath path = false)
    (hsrc : (sourceScaffold R (pathName path) lang template tutorial).2 = none)
    (hdev : (scaffold_devcontainer R lang).2 = none)
    (hdr : (scaffold_direnv R lang).2 = none)
    (hco : (scaffold_compose R lang).2 = none)
    (hgp : ext.gitOnPath = true)
    (ht : fileEnvToken ext (fsAtToken R fs0 path lang dc template tutorial)
      path = "")
    (hint : ext.interactive = false) :
    create_project R ext fs0 path true lang dc template tutorial =
      ⟨fs0.applyOps (preOps R path lang dc template tutorial),
       preTrace R ext path lang dc template tutorial,
       some .missingCredential⟩ := by
  cases dc
  · simp [fsAtToken, preOps, devcontainerOps, guideOp, FS.applyOps,
      FS.applyOp, FsOp.event, List.foldl_append, List.append_assoc, hex] at ht
    simp [create_project, preOps, preTrace, devcontainerOps, guideOp,
      St.runOps, St.echoMsg, FS.applyOps, FS.applyOp, FsOp.event,
      List.foldl_append, List.append_assoc, *]
  · cases hdock : ext.dockerOnPath <;>
    · simp [fsAtToken, preOps, devcontainerOps, guideOp, FS.applyOps,
        FS.applyOp, FsOp.event, List.foldl_append, List.append_assoc, hex]
        at ht
      simp [create_project, preOps, preTrace, devcontainerOps, guideOp,
        St.runOps, St.echoMsg, FS.applyOps, FS.applyOp, FsOp.event,
        List.foldl_append, List.append_assoc, *]

theorem sourceScaffold_ok (R : Registry) (name lang : String)
    (template : Option String) (tutorial : Bool)
    (h : lang ∈ VALID_LANGUAGES) :
    (sourceScaffold R name lang template tutorial).2 = none := by
  simp [VALID_LANGUAGES] at h
  rcases h with rfl | rfl | rfl | rfl <;> cases tutorial <;>
    simp [sourceScaffold, standardScaffold, tutorialScaffold]

theorem sourceScaffold_unknown (R : Registry) (name lang : String)
    (template : Option String) (tutorial : Bool)
    (h : lang ∉ VALID_LANGUAGES) :
    (sourceScaffold R name lang template tutorial).2 =
      some (.unknownLanguage lang) := by
  simp [VALID_LANGUAGES] at h
  obtain ⟨h1, h2, h3, h4⟩ := h
  cases tutorial <;>
    simp [sourceScaffold, standardScaffold, tutorialScaffold, h1, h2, h3, h4]

theorem scaffold_devcontainer_ok (R : Registry) (lang : String)
    (h : lang ∈ VALID_LANGUAGES) :
    (scaffold_devcontainer R lang).2 = none := by
  simp [VALID_LANGUAGES] at h
  rcases h with rfl | rfl | rfl | rfl <;> simp [scaffold_devcontainer]

theorem scaffold_devcontainer_unknown (R : Registry) (lang : String)
    (h : lang ∉ VALID_LANGUAGES) :
    (scaffold_devcontainer R lang).2 = some (.unknownLanguage lang) := by
  simp [VALID_LANGUAGES] at h
  obtain ⟨h1, h2, h3, h4⟩ := h
  simp [scaffold_devcontainer, h1, h2, h3, h4]

theorem scaffold_direnv_ok (R : Registry) (lang : String)
    (h : lang ∈ VALID_LANGUAGES) :
    (scaffold_direnv R lang).2 = none := by
  simp [VALID_LANGUAGES] at h
  rcases h with rfl | rfl | rfl | rfl <;> simp [scaffold_direnv]

theorem scaffold_direnv_unknown (R : Registry) (lang : String)
    (h : lang ∉ VALID_LANGUAGES) :
    (scaffold_direnv R lang).2 = some (.unknownLanguage lang) := by
  simp [VALID_LANGUAGES] at h
  obtain ⟨h1, h2, h3, h4⟩ := h
  simp [scaffold_direnv, h1, h2, h3, h4]

theorem scaffold_compose_ok (R : Registry) (lang : String)
    (h : lang ∈ VALID_LANGUAGES) :
    (scaffold_compose R lang).2 = none := by
  simp [VALID_LANGUAGES] at h
  rcases h with rfl | rfl | rfl | rfl <;> simp [scaffold_compose]

theorem scaffold_compose_unknown (R : Registry) (lang : String)
    (h : lang ∉ VALID_LANGUAGES) :
    (scaffold_compose R lang).2 = some (.unknownLanguage lang) := by
  simp [VALID_LANGUAGES] at h
  obtain ⟨h1, h2, h3, h4⟩ := h
  simp [scaffold_compose, h1, h2, h3, h4]

theorem scaffold_tools_unknown (R : Registry) (fs : FS) (root : FPath)
    (lang : String) (h : lang ∉ VALID_LANGUAGES) :
    scaffold_tools R fs root lang =
      [.writeOp [".editorconfig"] (R.editorconfigBody ++ "\n")] := by
  simp [VALID_LANGUAGES] at h
  obtain ⟨h1, h2, h3, h4⟩ := h
  simp [scaffold_tools, precommitOps, h1, h2, h3, h4]

theorem filter_ne_of_sub (p q : FPath) (hp : p <+: q)
    (l : List (FPath × String)) :
    (l.filter fun a => !decide (p <+: a.1) && !decide (a.1 = q)) =
      l.filter (fun f => !decide (p <+: f.1)) := by
  apply List.filter_congr
  intro a _
  by_cases h1 : p <+: a.1
  · simp [h1]
  · have h2 : ¬ a.1 = q := fun hq => h1 (by rw [hq]; exact hp)
    simp [h1, h2]

theorem rmtree_applyOp (fs : FS) (p : FPath) (op : FsOp)
    (hp : p <+: op.opPath) : (fs.applyOp op).rmtree p = fs.rmtree p := by
  cases op with
  | mkdirOp q =>
    simp only [FsOp.opPath] at hp
    simp [FS.applyOp, FS.mkdirFs, FS.rmtree, List.filter_append, hp]
  | writeOp q c =>
    simp only [FsOp.opPath] at hp
    simp [FS.applyOp, FS.write, FS.rmtree, List.filter_append, hp]
    exact filter_ne_of_sub p q hp fs.files

theorem rmtree_applyOps (fs : FS) (p : FPath) (ops : List FsOp)
    (hp : ∀ op ∈ ops, p <+: op.opPath) :
    (fs.applyOps ops).rmtree p = fs.rmtree p := by
  induction ops generalizing fs with
  | nil => rfl
  | cons op ops ih =>
    rw [applyOps_cons, ih _ (fun o ho => hp o (by simp [ho])),
      rmtree_applyOp _ _ _ (hp op (by simp))]

theorem rmtree_fresh (fs : FS) (p : FPath) (h : fs.freshAt p) :
    fs.rmtree p = fs := by
  obtain ⟨hd, hf⟩ := h
  unfold FS.rmtree
  cases fs with
  | mk dirs files =>
    simp only at hd hf ⊢
    congr 1
    · exact List.filter_eq_self.mpr (fun a ha => by simpa using hd a ha)
    · exact List.filter_eq_self.mpr (fun a ha => by simpa using hf a ha)

theorem existsPath_of_fresh (fs : FS) (p : FPath) (h : fs.freshAt p) :
    fs.existsPath p = false := by
  obtain ⟨hd, hf⟩ := h
  simp only [FS.existsPath, Bool.or_eq_false_iff]
  constructor
  · have : p ∉ fs.dirs := fun hmem => (hd p hmem) (List.prefix_refl p)
    simpa using this
  · simp only [List.any_eq_false]
    intro f hfmem
    simp only [beq_iff_eq]
    intro he
    exact (hf f hfmem) (by rw [he])

theorem mem_dirs_applyOp (fs : FS) (q : FPath) (op : FsOp)
    (h : q ∈ fs.dirs) : q ∈ (fs.applyOp op).dirs := by
  cases op <;> simp [FS.applyOp, FS.mkdirFs, FS.write, h]

theorem mem_dirs_applyOps_of_mem (fs : FS) (q : FPath) (ops : List FsOp)
    (h : q ∈ fs.dirs) : q ∈ (fs.applyOps ops).dirs := by
  induction ops generalizing fs with
  | nil => simpa [FS.applyOps] using h
  | cons op os ih =>
    rw [applyOps_cons]
    exact ih _ (mem_dirs_applyOp _ _ _ h)

theorem mem_dirs_applyOps (fs : FS) (q : FPath) (ops : List FsOp)
    (h : FsOp.mkdirOp q ∈ ops) : q ∈ (fs.applyOps ops).dirs := by
  induction ops generalizing fs with
  | nil => simp at h
  | cons op ops ih =>
    rcases List.mem_cons.mp h with rfl | h
    · rw [applyOps_cons]
      exact mem_dirs_applyOps_of_mem _ _ _ (by simp [FS.applyOp, FS.mkdirFs])
    · rw [applyOps_cons]; exact ih _ h

theorem opPath_under (root : FPath) (op : FsOp) :
    (FsOp.under root op).opPath = root ++ op.opPath := by
  cases op <;> simp [FsOp.under, FsOp.opPath]

set_option maxHeartbeats 1000000 in
/-- A `create_project` run without the github flag, on a valid language
with git available and succeeding, succeeds with the success shape. -/
theorem create_local_shape (R : Registry) (ext : Ext) (fs0 : FS)
    (path : FPath) (lang : String) (dc : Bool) (template : Option String)
    (tutorial : Bool)
    (hex : fs0.existsPath path = false)
    (hsrc : (sourceScaffold R (pathName path) lang template tutorial).2 = none)
    (hdev : (scaffold_devcontainer R lang).2 = none)
    (hdr : (scaffold_direnv R lang).2 = none)
    (hco : (scaffold_compose R lang).2 = none)
    (hgp : ext.gitOnPath = true) (hgo : ext.gitOk = true) :
    create_project R ext fs0 path false lang dc template tutorial =
      ⟨fs0.applyOps
         (successOps R ext fs0 path false lang dc template tutorial),
       successTrace R ext fs0 path false lang dc template tutorial,
       none⟩ := by
  cases dc
  · simp [create_project, successOps, successTrace, preOps, preTrace,
      tokenOps, tokenEvents, remoteEvents, resolvedToken, fsAtToken,
      devcontainerOps, guideOp, St.runOps, St.echoMsg, gitStep,
      create_github_repo, FS.applyOps, FS.applyOp, FsOp.event,
      List.foldl_append, List.append_assoc, *]
  · cases hdock : ext.dockerOnPath <;>
      simp [create_project, successOps, successTrace, preOps, preTrace,
        tokenOps, tokenEvents, remoteEvents, resolvedToken, fsAtToken,
        devcontainerOps, guideOp, St.runOps, St.echoMsg, gitStep,
        create_github_repo, FS.applyOps, FS.applyOp, FsOp.event,
        List.foldl_append, List.append_assoc, *]

theorem successOps_local_under (R : Registry) (ext : Ext) (fs0 : FS)
    (path : FPath) (lang : String) :
    ∀ op ∈ successOps R ext fs0 path false lang false none false,
      path <+: op.opPath := by
  intro op hop
  simp [successOps, preOps, tokenOps, devcontainerOps, guideOp] at hop
  rcases hop with rfl | ⟨o, _, rfl⟩ | rfl | rfl
  · simp [FsOp.opPath]
  · rw [opPath_under]; exact List.prefix_append _ _
  · simp [FsOp.opPath]
  · simp [FsOp.opPath]

theorem existsPath_of_mem_dirs (fs : FS) (p : FPath) (h : p ∈ fs.dirs) :
    fs.existsPath p = true := by
  simp only [FS.existsPath, Bool.or_eq_true]
  exact Or.inl (by simpa using h)

/-- C5: for every valid (name, language) pair with `github=false`,
`devcontainer=false`, `tools=false`, `tutorial=false`, creating a project
at a fresh path and then deleting it restores the filesystem exactly: the
deletion succeeds and returns the initial filesystem unchanged (the
directory is absent again and nothing outside it was created or
modified), and the creation itself succeeded. -/
theorem create_delete_roundtrip (R : Registry) (ext ext' : Ext) (fs0 : FS)
    (path : FPath) (lang : String)
    (hfresh : fs0.freshAt path)
    (hlang : lang ∈ VALID_LANGUAGES)
    (hgp : ext.gitOnPath = true) (hgo : ext.gitOk = true) :
    (create_project R ext fs0 path false lang false none false).err = none ∧
    delete_project ext'
        (create_project R ext fs0 path false lang false none false).fs path
        false =
      ⟨fs0, [], none⟩ := by
  have hex := existsPath_of_fresh fs0 path hfresh
  have hshape := create_local_shape R ext fs0 path lang false none false hex
    (sourceScaffold_ok R (pathName path) lang none false hlang)
    (scaffold_devcontainer_ok R lang hlang)
    (scaffold_direnv_ok R lang hlang)
    (scaffold_compose_ok R lang hlang) hgp hgo
  rw [hshape]
  refine ⟨rfl, ?_⟩
  have hmem : path ∈
      (fs0.applyOps
        (successOps R ext fs0 path false lang false none false)).dirs :=
    mem_dirs_applyOps _ _ _ (by simp [successOps, preOps])
  have hrm : (fs0.applyOps
      (successOps R ext fs0 path false lang false none false)).rmtree path
      = fs0 := by
    rw [rmtree_applyOps _ _ _ (successOps_local_under R ext fs0 path lang),
      rmtree_fresh _ _ hfresh]
  simp [delete_project, existsPath_of_mem_dirs _ _ hmem, hrm]

/-- Witness for C5 at a concrete input: an empty filesystem, the project
`demo1`, language python. -/
theorem create_delete_roundtrip_witness :
    (create_project sampleRegistry sampleExt FS.empty ["demo1"] false
      "python" false none false).err = none ∧
    delete_project sampleExt
        (create_project sampleRegistry sampleExt FS.empty ["demo1"] false
          "python" false none false).fs ["demo1"] false =
      ⟨FS.empty, [], none⟩ :=
  create_delete_roundtrip sampleRegistry sampleExt sampleExt FS.empty
    ["demo1"] "python" (by decide) (by decide) rfl rfl

/-- C3: `delete_project` with `github=true` on an existing directory
removes the local tree only after the remote deletion succeeded.  If no
token resolves, the run fails with `MissingCredential` and the filesystem
(credential file included) is unchanged; if the user lookup or the remote
deletion fails, the run fails with `RemoteAPIError` and the filesystem is
unchanged; any failing run leaves the filesystem unchanged, and a
successful run removes exactly the directory tree. -/
theorem delete_project_remote_guard (ext : Ext) (fs0 : FS) (path : FPath)
    (hex : fs0.existsPath path = true) :
    ((delete_project ext fs0 path true).err ≠ none →
      (delete_project ext fs0 path true).fs = fs0) ∧
    (fileEnvToken ext fs0 path = "" →
      delete_project ext fs0 path true = ⟨fs0, [], some .missingCredential⟩) ∧
    (∀ st body, fileEnvToken ext fs0 path ≠ "" →
      ext.userLogin = .error (st, body) →
      (delete_project ext fs0 path true).fs = fs0 ∧
      (delete_project ext fs0 path true).err =
        some (.remoteAPIError st body)) ∧
    (∀ owner st body, fileEnvToken ext fs0 path ≠ "" →
      ext.userLogin = .ok owner → ext.deleteRepo = .error (st, body) →
      (delete_project ext fs0 path true).fs = fs0 ∧
      (delete_project ext fs0 path true).err =
        some (.remoteAPIError st body)) ∧
    ((delete_project ext fs0 path true).err = none →
      (delete_project ext fs0 path true).fs = fs0.rmtree path) := by
  by_cases ht : fileEnvToken ext fs0 path = ""
  · refine ⟨?_, ?_, ?_, ?_, ?_⟩ <;>
      simp [delete_project, hex, ht]
  · rcases hu : ext.userLogin with ⟨st, body⟩ | owner
    · refine ⟨?_, ?_, ?_, ?_, ?_⟩ <;>
        simp [delete_project, get_github_user, hex, ht, hu]
    · rcases hd : ext.deleteRepo with ⟨st, body⟩ | u
      · refine ⟨?_, ?_, ?_, ?_, ?_⟩ <;>
          simp [delete_project, get_github_user, hex, ht, hu, hd]
      · refine ⟨?_, ?_, ?_, ?_, ?_⟩ <;>
          simp [delete_project, get_github_user, hex, ht, hu, hd]

/-- Witness for C3 at a concrete input: a filesystem holding the project
directory and its credential file, a failing remote deletion (HTTP 403),
showing the unchanged filesystem, and the missing-token case. -/
theorem delete_project_remote_guard_witness :
    (fileEnvToken
        { sampleExt with deleteRepo := .error (403, "forbidden") }
        ⟨[["demo1"]], [(["demo1", ".sparkstart.env"], "GITHUB_TOKEN=tok9\n")]⟩
        ["demo1"] ≠ "") ∧
    (delete_project { sampleExt with deleteRepo := .error (403, "forbidden") }
        ⟨[["demo1"]], [(["demo1", ".sparkstart.env"], "GITHUB_TOKEN=tok9\n")]⟩
        ["demo1"] true).fs =
      ⟨[["demo1"]], [(["demo1", ".sparkstart.env"], "GITHUB_TOKEN=tok9\n")]⟩ ∧
    (delete_project { sampleExt with deleteRepo := .error (403, "forbidden") }
        ⟨[["demo1"]], [(["demo1", ".sparkstart.env"], "GITHUB_TOKEN=tok9\n")]⟩
        ["demo1"] true).err = some (.remoteAPIError 403 "forbidden") := by
  refine ⟨by decide, ?_⟩
  exact (delete_project_remote_guard _ _ _ (by decide)).2.2.2.1 "alice" 403
    "forbidden" (by decide) rfl rfl

theorem find?_filter_ne_append (q : FPath) (c : String)
    (l : List (FPath × String)) :
    List.find? (fun f => f.1 == q)
        ((l.filter fun f => ¬ f.1 = q) ++ [(q, c)]) = some (q, c) := by
  induction l with
  | nil => simp
  | cons a l ih =>
    rw [List.filter_cons]
    by_cases ha : a.1 = q
    · rw [if_neg]
      · exact ih
      · simp [ha]
    · rw [if_pos]
      · rw [List.cons_append, List.find?_cons]
        simp only [beq_eq_false_iff_ne.mpr ha]
        exact ih
      · simp [ha]

theorem find?_filter_sub (q q' : FPath) (hq : ¬ q = q')
    (l : List (FPath × String)) :
    List.find? (fun f => f.1 == q) (l.filter fun f => ¬ f.1 = q') =
      List.find? (fun f => f.1 == q) l := by
  induction l with
  | nil => rfl
  | cons a l ih =>
    by_cases ha : a.1 = q'
    · have haq : (a.1 == q) = false :=
        beq_eq_false_iff_ne.mpr (fun h => hq (by rw [← h, ha]))
      rw [List.filter_cons, if_neg (by simp [ha])]
      conv_rhs => rw [List.find?_cons]
      simp only [haq]
      exact ih
    · rw [List.filter_cons, if_pos (by simp [ha])]
      by_cases haq : a.1 = q
      · have hb : (a.1 == q) = true := by simp [haq]
        simp only [List.find?_cons, hb]
      · have hb : (a.1 == q) = false := by simp [haq]
        simp only [List.find?_cons, hb]
        exact ih

theorem find?_filter_other (q q' : FPath) (c : String) (hq : ¬ q = q')
    (l : List (FPath × String)) :
    List.find? (fun f => f.1 == q)
        ((l.filter fun f => ¬ f.1 = q') ++ [(q', c)]) =
      List.find? (fun f => f.1 == q) l := by
  have hq2 : (q' == q) = false := beq_eq_false_iff_ne.mpr fun h => hq h.symm
  rw [List.find?_append, find?_filter_sub q q' hq]
  simp [List.find?_cons, hq2]

theorem read_write_self (fs : FS) (q : FPath) (c : String) :
    (fs.write q c).read q = some c := by
  unfold FS.write FS.read
  simp [find?_filter_ne_append]

theorem read_write_ne (fs : FS) (q q' : FPath) (c : String)
    (h : ¬ q = q') : (fs.write q' c).read q = fs.read q := by
  simp only [FS.write, FS.read]
  rw [find?_filter_other q q' c h]

theorem read_applyOp_mkdir (fs : FS) (p q : FPath) :
    (fs.applyOp (.mkdirOp p)).read q = fs.read q := rfl

theorem read_applyOp_write_self (fs : FS) (q : FPath) (c : String) :
    (fs.applyOp (.writeOp q c)).read q = some c := read_write_self fs q c

theorem read_applyOp_write_ne (fs : FS) (q q' : FPath) (c : String)
    (h : ¬ q = q') : (fs.applyOp (.writeOp q' c)).read q = fs.read q :=
  read_write_ne fs q q' c h

theorem read_none_of_no_entry (fs : FS) (q : FPath)
    (h : ∀ f ∈ fs.files, ¬ f.1 = q) : fs.read q = none := by
  unfold FS.read
  rw [List.find?_eq_none.mpr]
  · rfl
  · intro f hf
    simpa using h f hf

theorem read_none_of_fresh (fs : FS) (p : FPath) (suffix : FPath)
    (h : fs.freshAt p) : fs.read (p ++ suffix) = none := by
  apply read_none_of_no_entry
  intro f hf he
  exact (h.2 f hf) (by rw [he]; exact List.prefix_append _ _)

theorem read_applyOps_no_write (fs : FS) (ops : List FsOp) (q : FPath)
    (h : ∀ op ∈ ops, ∀ c, op ≠ .writeOp q c) :
    (fs.applyOps ops).read q = fs.read q := by
  induction ops generalizing fs with
  | nil => rfl
  | cons op ops ih =>
    rw [applyOps_cons, ih _ (fun o ho c => h o (by simp [ho]) c)]
    cases op with
    | mkdirOp p => rfl
    | writeOp p c =>
      refine read_write_ne fs q p c (fun he => ?_)
      exact h (.writeOp p c) (List.mem_cons_self _ _) c (by rw [he])

theorem saveTokenOps_paths (fs : FS) (root : FPath) (t : String) :
    ∀ op ∈ saveTokenOps fs root t,
      op.opPath = root ++ [credFileName] ∨
        op.opPath = root ++ [".gitignore"] := by
  intro op hop
  unfold saveTokenOps at hop
  simp only [] at hop
  split at hop
  · simp at hop
    subst hop
    simp [FsOp.opPath]
  · simp at hop
    rcases hop with rfl | rfl <;> simp [FsOp.opPath]

theorem create_err_none_valid_lang (R : Registry) (ext : Ext) (fs0 : FS)
    (path : FPath) (github : Bool) (lang : String) (dc : Bool)
    (template : Option String) (tutorial : Bool)
    (h : (create_project R ext fs0 path github lang dc template tutorial).err
      = none) : lang ∈ VALID_LANGUAGES := by
  by_contra hl
  have hsrc := sourceScaffold_unknown R (pathName path) lang template
    tutorial hl
  unfold create_project at h
  by_cases hex : fs0.existsPath path = true
  · simp [hex] at h
  · simp [hex, hsrc] at h

theorem tokenOps_paths (ext : Ext) (fsG : FS) (path : FPath) (github : Bool) :
    ∀ op ∈ tokenOps ext fsG path github,
      op.opPath = path ++ [credFileName] ∨
        op.opPath = path ++ [".gitignore"] := by
  intro op hop
  unfold tokenOps at hop
  split at hop
  · split at hop
    · exact saveTokenOps_paths fsG path ext.promptToken op hop
    · simp at hop
  · simp at hop

theorem read_success_eq_read_preOps (R : Registry) (ext : Ext) (fs0 : FS)
    (path : FPath) (github : Bool) (lang : String) (dc : Bool)
    (template : Option String) (tutorial : Bool) (q : FPath)
    (h1 : ¬ q = path ++ [credFileName]) (h2 : ¬ q = path ++ [".gitignore"]) :
    (fs0.applyOps
        (successOps R ext fs0 path github lang dc template tutorial)).read q
      = (fs0.applyOps (preOps R path lang dc template tutorial)).read q := by
  unfold successOps
  rw [applyOps_append, applyOps_append]
  have hnw : ∀ op ∈ tokenOps ext
      (fsAtToken R fs0 path lang dc template tutorial) path github,
      ∀ c, op ≠ .writeOp q c := by
    intro op hop c he
    rcases tokenOps_paths ext _ path github op hop with hp | hp <;>
      rw [he] at hp <;> simp [FsOp.opPath] at hp
    · exact h1 hp
    · exact h2 hp
  rw [show (((fs0.applyOps (preOps R path lang dc template tutorial)).applyOps
      (tokenOps ext (fsAtToken R fs0 path lang dc template tutorial) path
        github)).applyOps [FsOp.mkdirOp (path ++ [".git"])]) =
      (((fs0.applyOps (preOps R path lang dc template tutorial)).applyOps
      (tokenOps ext (fsAtToken R fs0 path lang dc template tutorial) path
        github)).applyOp (FsOp.mkdirOp (path ++ [".git"]))) from rfl,
    read_applyOp_mkdir,
    read_applyOps_no_write _ _ _ hnw]

set_option maxHeartbeats 4000000 in
/-- C9: for every successful `create_project` invocation from a fresh
path, the three auxiliary artifacts — the devcontainer descriptor
`.devcontainer/devcontainer.json`, the environment-activation file
`.envrc` and the compose manifest `compose.yaml` — exist afterwards
exactly when `devcontainer=true`: all three together when the flag is on,
none of them when it is off. -/
theorem devcontainer_artifacts_gate (R : Registry) (ext : Ext) (fs0 : FS)
    (path : FPath) (github : Bool) (lang : String) (dc : Bool)
    (template : Option String) (tutorial : Bool)
    (hfresh : fs0.freshAt path)
    (h : (create_project R ext fs0 path github lang dc template tutorial).err
      = none) :
    (((create_project R ext fs0 path github lang dc template
        tutorial).fs.read (path ++ [".devcontainer", "devcontainer.json"])
      ).isSome = dc) ∧
    (((create_project R ext fs0 path github lang dc template
        tutorial).fs.read (path ++ [".envrc"])).isSome = dc) ∧
    (((create_project R ext fs0 path github lang dc template
        tutorial).fs.read (path ++ ["compose.yaml"])).isSome = dc) := by
  have hlang := create_err_none_valid_lang R ext fs0 path github lang dc
    template tutorial h
  simp only [VALID_LANGUAGES, List.mem_cons, List.mem_singleton,
    List.not_mem_nil, or_false] at hlang
  rcases create_shape R ext fs0 path github lang dc template tutorial
    with hbad | heq
  · exact absurd h hbad
  rw [heq]
  have hbase : ∀ s : FPath, fs0.read (path ++ s) = none :=
    fun s => read_none_of_fresh fs0 path s hfresh
  refine ⟨?_, ?_, ?_⟩ <;>
  · show ((fs0.applyOps (successOps R ext fs0 path github lang dc template
      tutorial)).read _).isSome = dc
    rw [read_success_eq_read_preOps R ext fs0 path github lang dc template
      tutorial _ (by simp [credFileName]) (by simp)]
    rcases hlang with rfl | rfl | rfl | rfl <;> cases tutorial <;> cases dc <;>
      simp [preOps, devcontainerOps, sourceScaffold, standardScaffold,
        tutorialScaffold, scaffold_python, scaffold_rust, scaffold_javascript,
        scaffold_cpp, scaffold_devcontainer, scaffold_direnv, scaffold_compose,
        guideOp, FsOp.under, FS.applyOps, read_applyOp_mkdir,
        read_applyOp_write_self, read_applyOp_write_ne, hbase]

theorem read_isSome_applyOp (fs : FS) (q : FPath) (op : FsOp)
    (h : ((fs.read q).isSome) = true) :
    (((fs.applyOp op).read q).isSome) = true := by
  cases op with
  | mkdirOp p => exact h
  | writeOp p c =>
    by_cases hq : q = p
    · subst hq
      rw [read_applyOp_write_self]
      rfl
    · rw [read_applyOp_write_ne _ _ _ _ hq]
      exact h

theorem read_isSome_applyOps (fs : FS) (ops : List FsOp) (q : FPath)
    (h : ((fs.read q).isSome) = true) :
    (((fs.applyOps ops).read q).isSome) = true := by
  induction ops generalizing fs with
  | nil => exact h
  | cons op ops ih =>
    rw [applyOps_cons]
    exact ih _ (read_isSome_applyOp _ _ _ h)

theorem read_isSome_of_write_mem (fs : FS) (ops : List FsOp) (q : FPath)
    (c : String) (hmem : FsOp.writeOp q c ∈ ops) :
    (((fs.applyOps ops).read q).isSome) = true := by
  induction ops generalizing fs with
  | nil => simp at hmem
  | cons op ops ih =>
    rcases List.mem_cons.mp hmem with rfl | hmem
    · rw [applyOps_cons]
      refine read_isSome_applyOps _ _ _ ?_
      rw [read_applyOp_write_self]
      rfl
    · rw [applyOps_cons]
      exact ih _ hmem

theorem not_mem_dirs_applyOps (fs : FS) (ops : List FsOp) (q : FPath)
    (h1 : q ∉ fs.dirs) (h2 : FsOp.mkdirOp q ∉ ops) :
    q ∉ (fs.applyOps ops).dirs := by
  induction ops generalizing fs with
  | nil => exact h1
  | cons op ops ih =>
    rw [applyOps_cons]
    refine ih _ ?_ (fun hm => h2 (List.mem_cons.mpr (Or.inr hm)))
    cases op with
    | mkdirOp p =>
      simp only [FS.applyOp, FS.mkdirFs, List.mem_append, List.mem_singleton]
      rintro (hm | rfl)
      · exact h1 hm
      · exact h2 (List.mem_cons_self _ _)
    | writeOp p c => exact h1

theorem event_eq_git_iff (op : FsOp) (args : List String) (cwd : FPath) :
    (FsOp.event op = Event.gitCmd args cwd) = False := by
  cases op <;> simp [FsOp.event]

theorem git_eq_event_iff (op : FsOp) (args : List String) (cwd : FPath) :
    (Event.gitCmd args cwd = FsOp.event op) = False := by
  cases op <;> simp [FsOp.event]

set_option maxHeartbeats 1000000 in
theorem preOps_no_cred_write (R : Registry) (path : FPath) (lang : String)
    (dc : Bool) (template : Option String) (tutorial : Bool)
    (hlang : lang ∈ VALID_LANGUAGES) :
    ∀ c, FsOp.writeOp (path ++ [credFileName]) c ∉
      preOps R path lang dc template tutorial := by
  simp only [VALID_LANGUAGES, List.mem_cons, List.mem_singleton,
    List.not_mem_nil, or_false] at hlang
  rcases hlang with rfl | rfl | rfl | rfl <;> cases tutorial <;> cases dc <;>
    simp [preOps, devcontainerOps, sourceScaffold, standardScaffold,
      tutorialScaffold, scaffold_python, scaffold_rust, scaffold_javascript,
      scaffold_cpp, scaffold_devcontainer, scaffold_direnv, scaffold_compose,
      guideOp, FsOp.under, credFileName]

theorem fileEnvToken_after_preOps (R : Registry) (ext : Ext) (fs0 : FS)
    (path : FPath) (lang : String) (dc : Bool) (template : Option String)
    (tutorial : Bool) (hfresh : fs0.freshAt path)
    (hlang : lang ∈ VALID_LANGUAGES) (henv : ext.envToken = "") :
    fileEnvToken ext (fsAtToken R fs0 path lang dc template tutorial) path
      = "" := by
  have hnw : ∀ op ∈ preOps R path lang dc template tutorial,
      ∀ c, op ≠ .writeOp (path ++ [credFileName]) c :=
    fun op hop c he =>
      preOps_no_cred_write R path lang dc template tutorial hlang c
        (he ▸ hop)
  have hread : (fsAtToken R fs0 path lang dc template tutorial).read
      (path ++ [credFileName]) = none := by
    unfold fsAtToken
    rw [read_applyOps_no_write _ _ _ hnw,
      read_none_of_fresh fs0 path [credFileName] hfresh]
  simp [fileEnvToken, get_project_token, hread, henv]

set_option maxHeartbeats 1000000 in
theorem preTrace_no_git (R : Registry) (ext : Ext) (path : FPath)
    (lang : String) (dc : Bool) (template : Option String) (tutorial : Bool) :
    ∀ args cwd, Event.gitCmd args cwd ∉
      preTrace R ext path lang dc template tutorial := by
  intro args cwd hmem
  cases dc <;> cases hdock : ext.dockerOnPath <;>
    simp [preTrace, event_eq_git_iff, git_eq_event_iff, Function.comp,
      hdock] at hmem

/-- C2: a `create_project` invocation with `github=true` on a valid
language, with no token in the per-project credential file or the
environment and no interactive context, fails with `MissingCredential`
before any version-control command runs: the trace contains no git
command, the `.git` directory was never created, yet every file written
by the source-scaffold step is present in the directory. -/
theorem create_github_no_token_noninteractive (R : Registry) (ext : Ext)
    (fs0 : FS) (path : FPath) (lang : String) (dc : Bool)
    (template : Option String) (tutorial : Bool)
    (hfresh : fs0.freshAt path) (hlang : lang ∈ VALID_LANGUAGES)
    (hgp : ext.gitOnPath = true) (henv : ext.envToken = "")
    (hint : ext.interactive = false) :
    (create_project R ext fs0 path true lang dc template tutorial).err =
      some .missingCredential ∧
    (∀ args cwd, Event.gitCmd args cwd ∉
      (create_project R ext fs0 path true lang dc template tutorial).trace) ∧
    (path ++ [".git"]) ∉
      (create_project R ext fs0 path true lang dc template tutorial).fs.dirs ∧
    (∀ q c, FsOp.writeOp q c ∈
        ((sourceScaffold R (pathName path) lang template tutorial).1.map
          (FsOp.under path)) →
      (((create_project R ext fs0 path true lang dc template
        tutorial).fs.read q).isSome) = true) := by
  have hM2 := create_missing_credential R ext fs0 path lang dc template
    tutorial (existsPath_of_fresh _ _ hfresh)
    (sourceScaffold_ok R (pathName path) lang template tutorial hlang)
    (scaffold_devcontainer_ok R lang hlang)
    (scaffold_direnv_ok R lang hlang)
    (scaffold_compose_ok R lang hlang) hgp
    (fileEnvToken_after_preOps R ext fs0 path lang dc template tutorial
      hfresh hlang henv) hint
  rw [hM2]
  refine ⟨rfl, ?_, ?_, ?_⟩
  · exact fun args cwd =>
      preTrace_no_git R ext path lang dc template tutorial args cwd
  · refine not_mem_dirs_applyOps fs0 _ _ ?_ ?_
    · exact fun hm => (hfresh.1 _ hm) (List.prefix_append _ _)
    · intro hm
      simp only [VALID_LANGUAGES, List.mem_cons, List.mem_singleton,
        List.not_mem_nil, or_false] at hlang
      rcases hlang with rfl | rfl | rfl | rfl <;> cases tutorial <;>
        cases dc <;>
        simp [preOps, devcontainerOps, sourceScaffold, standardScaffold,
          tutorialScaffold, scaffold_python, scaffold_rust,
          scaffold_javascript, scaffold_cpp, scaffold_devcontainer,
          scaffold_direnv, scaffold_compose, guideOp, FsOp.under] at hm
  · intro q c hmem
    have : FsOp.writeOp q c ∈ preOps R path lang dc template tutorial := by
      simp only [preOps, List.mem_cons, List.mem_append]
      exact Or.inr (Or.inl (Or.inl hmem))
    exact read_isSome_of_write_mem fs0 _ q c this

/-- Witness for C9 at a concrete input: python project with
`devcontainer=true`; all three artifacts exist. -/
theorem devcontainer_artifacts_gate_witness :
    (((create_project sampleRegistry sampleExt FS.empty ["demo1"] false
        "python" true none false).fs.read
        (["demo1"] ++ [".devcontainer", "devcontainer.json"])).isSome
      = true) ∧
    (((create_project sampleRegistry sampleExt FS.empty ["demo1"] false
        "python" true none false).fs.read
        (["demo1"] ++ [".envrc"])).isSome = true) ∧
    (((create_project sampleRegistry sampleExt FS.empty ["demo1"] false
        "python" true none false).fs.read
        (["demo1"] ++ ["compose.yaml"])).isSome = true) :=
  devcontainer_artifacts_gate sampleRegistry sampleExt FS.empty ["demo1"]
    false "python" true none false (by decide) (by decide)

/-- Witness for C2 at a concrete input: python project, `github=true`,
empty environment token, non-interactive context. -/
theorem create_github_no_token_noninteractive_witness :
    (create_project sampleRegistry
        { sampleExt with envToken := "", interactive := false }
        FS.empty ["demo1"] true "python" false none false).err =
      some .missingCredential ∧
    (∀ args cwd, Event.gitCmd args cwd ∉
      (create_project sampleRegistry
        { sampleExt with envToken := "", interactive := false }
        FS.empty ["demo1"] true "python" false none false).trace) ∧
    (["demo1"] ++ [".git"]) ∉
      (create_project sampleRegistry
        { sampleExt with envToken := "", interactive := false }
        FS.empty ["demo1"] true "python" false none false).fs.dirs ∧
    (∀ q c, FsOp.writeOp q c ∈
        ((sourceScaffold sampleRegistry (pathName ["demo1"]) "python" none
          false).1.map (FsOp.under ["demo1"])) →
      (((create_project sampleRegistry
        { sampleExt with envToken := "", interactive := false }
        FS.empty ["demo1"] true "python" false none false).fs.read
          q).isSome) = true) :=
  create_github_no_token_noninteractive sampleRegistry
    { sampleExt with envToken := "", interactive := false }
    FS.empty ["demo1"] "python" false none false (by decide) (by decide)
    rfl rfl rfl

set_option maxHeartbeats 1000000 in
theorem preOps_no_tools_write (R : Registry) (path : FPath) (lang : String)
    (dc : Bool) (template : Option String) (tutorial : Bool)
    (hlang : lang ∈ VALID_LANGUAGES) :
    ∀ c, (FsOp.writeOp (path ++ [".editorconfig"]) c ∉
        preOps R path lang dc template tutorial) ∧
      (FsOp.writeOp (path ++ [".pre-commit-config.yaml"]) c ∉
        preOps R path lang dc template tutorial) := by
  simp only [VALID_LANGUAGES, List.mem_cons, List.mem_singleton,
    List.not_mem_nil, or_false] at hlang
  rcases hlang with rfl | rfl | rfl | rfl <;> cases tutorial <;> cases dc <;>
    simp [preOps, devcontainerOps, sourceScaffold, standardScaffold,
      tutorialScaffold, scaffold_python, scaffold_rust, scaffold_javascript,
      scaffold_cpp, scaffold_devcontainer, scaffold_direnv, scaffold_compose,
      guideOp, FsOp.under]

/-- C4 (supporting theorem for a code bug): no successful `create_project`
run — whatever the flags — ever writes the tools-scaffolder artifacts
(`.editorconfig`, `.pre-commit-config.yaml`): `create_project` has no
`tools` parameter and never calls `scaffold_tools`, even though
`scaffold_tools` (third conjunct) would write exactly those files, and the
CLI advertises a `--tools` option that it passes to `create_project` as a
seventh argument the function does not accept. -/
theorem tools_scaffolder_never_invoked (R : Registry) (ext : Ext) (fs0 : FS)
    (path : FPath) (github : Bool) (lang : String) (dc : Bool)
    (template : Option String) (tutorial : Bool)
    (hfresh : fs0.freshAt path)
    (h : (create_project R ext fs0 path github lang dc template tutorial).err
      = none) :
    ((create_project R ext fs0 path github lang dc template tutorial).fs.read
      (path ++ [".editorconfig"]) = none) ∧
    ((create_project R ext fs0 path github lang dc template tutorial).fs.read
      (path ++ [".pre-commit-config.yaml"]) = none) ∧
    (FsOp.writeOp [".editorconfig"] (R.editorconfigBody ++ "\n") ∈
      scaffold_tools R
        (create_project R ext fs0 path github lang dc template tutorial).fs
        path lang) := by
  have hlang := create_err_none_valid_lang R ext fs0 path github lang dc
    template tutorial h
  rcases create_shape R ext fs0 path github lang dc template tutorial
    with hbad | heq
  · exact absurd h hbad
  rw [heq]
  have htools := preOps_no_tools_write R path lang dc template tutorial hlang
  refine ⟨?_, ?_, ?_⟩
  · show (fs0.applyOps (successOps R ext fs0 path github lang dc template
      tutorial)).read (path ++ [".editorconfig"]) = none
    rw [read_success_eq_read_preOps R ext fs0 path github lang dc template
      tutorial _ (by simp [credFileName]) (by simp)]
    rw [read_applyOps_no_write _ _ _
      (fun op hop c he => (htools c).1 (he ▸ hop))]
    exact read_none_of_fresh fs0 path [".editorconfig"] hfresh
  · show (fs0.applyOps (successOps R ext fs0 path github lang dc template
      tutorial)).read (path ++ [".pre-commit-config.yaml"]) = none
    rw [read_success_eq_read_preOps R ext fs0 path github lang dc template
      tutorial _ (by simp [credFileName]) (by simp)]
    rw [read_applyOps_no_write _ _ _
      (fun op hop c he => (htools c).2 (he ▸ hop))]
    exact read_none_of_fresh fs0 path [".pre-commit-config.yaml"] hfresh
  · simp [scaffold_tools]

/-- Witness for C4 at a concrete input: python project with default
flags. -/
theorem tools_scaffolder_never_invoked_witness :
    ((create_project sampleRegistry sampleExt FS.empty ["demo1"] false
      "python" false none false).fs.read
      (["demo1"] ++ [".editorconfig"]) = none) ∧
    ((create_project sampleRegistry sampleExt FS.empty ["demo1"] false
      "python" false none false).fs.read
      (["demo1"] ++ [".pre-commit-config.yaml"]) = none) ∧
    (FsOp.writeOp [".editorconfig"] (sampleRegistry.editorconfigBody ++ "\n")
      ∈ scaffold_tools sampleRegistry
        (create_project sampleRegistry sampleExt FS.empty ["demo1"] false
          "python" false none false).fs ["demo1"] "python") :=
  tools_scaffolder_never_invoked sampleRegistry sampleExt FS.empty ["demo1"]
    false "python" false none false (by decide) (by decide)

/-- Counterexample for C6 as stated: the tools scaffolder invoked with the
unknown language `haskell` is not a hard failure — `scaffold_tools` has no
failure outcome at all and silently writes only the editor configuration,
skipping the language-specific and pre-commit configuration. -/
theorem scaffold_tools_silent_unknown :
    scaffold_tools sampleRegistry FS.empty ["demo1"] "haskell" =
      [.writeOp [".editorconfig"]
        (sampleRegistry.editorconfigBody ++ "\n")] := by
  decide

/-- C6 (amended): for every language outside the four supported ones, the
source dispatch and the devcontainer, environment-activation and compose
scaffolders are hard failures (`UnsupportedLanguage`), but the tools
scaffolder is not: it silently writes only the editor configuration. -/
theorem unknown_language_scaffolders (R : Registry) (fs : FS) (root : FPath)
    (name lang : String) (template : Option String) (tutorial : Bool)
    (h : lang ∉ VALID_LANGUAGES) :
    (sourceScaffold R name lang template tutorial).2 =
      some (.unknownLanguage lang) ∧
    (scaffold_devcontainer R lang).2 = some (.unknownLanguage lang) ∧
    (scaffold_direnv R lang).2 = some (.unknownLanguage lang) ∧
    (scaffold_compose R lang).2 = some (.unknownLanguage lang) ∧
    scaffold_tools R fs root lang =
      [.writeOp [".editorconfig"] (R.editorconfigBody ++ "\n")] :=
  ⟨sourceScaffold_unknown R name lang template tutorial h,
   scaffold_devcontainer_unknown R lang h,
   scaffold_direnv_unknown R lang h,
   scaffold_compose_unknown R lang h,
   scaffold_tools_unknown R fs root lang h⟩

/-- Witness for C6 (amended) at the concrete unknown language
`haskell`. -/
theorem unknown_language_scaffolders_witness :
    (sourceScaffold sampleRegistry "demo1" "haskell" none false).2 =
      some (.unknownLanguage "haskell") ∧
    (scaffold_devcontainer sampleRegistry "haskell").2 =
      some (.unknownLanguage "haskell") ∧
    (scaffold_direnv sampleRegistry "haskell").2 =
      some (.unknownLanguage "haskell") ∧
    (scaffold_compose sampleRegistry "haskell").2 =
      some (.unknownLanguage "haskell") ∧
    scaffold_tools sampleRegistry FS.empty ["proj"] "haskell" =
      [.writeOp [".editorconfig"]
        (sampleRegistry.editorconfigBody ++ "\n")] :=
  unknown_language_scaffolders sampleRegistry FS.empty ["proj"] "demo1"
    "haskell" none false (by decide)

theorem toNat_ofNat_small (n : Nat) (h : n < 55296) :
    (Char.ofNat n).toNat = n := by
  have hv : n.isValidChar := Or.inl (by omega)
  rw [Char.ofNat, dif_pos hv]
  rfl

theorem char_eq_of_toNat (c : Char) (n : Nat) (hn : n < 55296)
    (h : c.toNat = n) : c = Char.ofNat n := by
  subst h
  rw [Char.ofNat_toNat]

theorem lowerChar_eq (c l : Char) (hl : 97 ≤ l.toNat) (hl2 : l.toNat ≤ 122)
    (h : lowerChar c = l) : c = l ∨ c.toNat = l.toNat - 32 := by
  unfold lowerChar at h
  split at h
  · rename_i hc
    right
    have h2 := congrArg Char.toNat h
    rw [toNat_ofNat_small _ (by omega)] at h2
    omega
  · left; exact h

theorem lowerChar_cases (a l u : Char) (h97 : 97 ≤ l.toNat)
    (h122 : l.toNat ≤ 122) (hu : u = Char.ofNat (l.toNat - 32))
    (h : lowerChar a = l) : a = l ∨ a = u := by
  rcases lowerChar_eq a l h97 h122 h with h1 | h1
  · exact Or.inl h1
  · right
    rw [hu]
    exact char_eq_of_toNat a _ (by omega) h1

theorem map_eq_cons' {α β : Type} (f : α → β) (l : List α) (b : β)
    (bs : List β) (h : l.map f = b :: bs) :
    ∃ a as, l = a :: as ∧ f a = b ∧ as.map f = bs := by
  cases l with
  | nil => simp at h
  | cons a as =>
    simp only [List.map_cons, List.cons.injEq] at h
    exact ⟨a, as, rfl, h.1, h.2⟩

theorem isDigit_not_alpha (c : Char) (h : c.isDigit = true) :
    c.isAlpha = false := by
  simp [Char.isDigit, UInt32.le_def, BitVec.le_def] at h
  simp [Char.isAlpha, Char.isUpper, Char.isLower, UInt32.le_def,
    UInt32.lt_def, BitVec.le_def, BitVec.lt_def]
  omega

theorem isDigit_ne_underscore (c : Char) (h : c.isDigit = true) :
    (c == '_') = false := by
  simp [Char.isDigit, UInt32.le_def, BitVec.le_def] at h
  simp only [beq_eq_false_iff_ne, ne_eq]
  rintro rfl
  simp at h

theorem nameRegexCore_digit_head (c : Char) (rest : List Char)
    (hd : c.isDigit = true) : nameRegexCore (c :: rest) = false := by
  simp [nameRegexCore, nameHeadOk, isDigit_not_alpha c hd,
    isDigit_ne_underscore c hd]

theorem nameRegexCore_space (l : List Char) (h : ' ' ∈ l) :
    nameRegexCore l = false := by
  cases l with
  | nil => simp at h
  | cons c rest =>
    rcases List.mem_cons.mp h with hc | hmem
    · rw [← hc]
      simp [nameRegexCore, nameHeadOk]
    · have hall : rest.all nameTailOk = false :=
        List.all_eq_false.mpr ⟨' ', hmem, by decide⟩
      simp [nameRegexCore, hall]

theorem mem_dropLast_of_ne_last {α : Type} [DecidableEq α] (l : List α)
    (a b : α) (ha : a ∈ l) (hl : l.getLast? = some b) (hne : a ≠ b) :
    a ∈ l.dropLast := by
  have hnil : l ≠ [] := by rintro rfl; simp at hl
  have hsplit := List.dropLast_append_getLast hnil
  rw [List.getLast?_eq_getLast l hnil] at hl
  have hb : l.getLast hnil = b := by injection hl
  rw [← hsplit] at ha
  rcases List.mem_append.mp ha with h | h
  · exact h
  · rw [List.mem_singleton] at h
    exact absurd (h.trans hb) hne

theorem matchesNameRegex_digit (s : String) (c : Char) (rest : List Char)
    (hdata : s.data = c :: rest) (hd : c.isDigit = true) :
    matchesNameRegex s = false := by
  unfold matchesNameRegex
  rw [hdata]
  simp only []
  by_cases hl : (c :: rest).getLast? = some '\n'
  · rw [if_pos hl]
    cases rest with
    | nil =>
      simp at hl
      rw [hl] at hd
      simp at hd
    | cons b t =>
      rw [show (c :: b :: t).dropLast = c :: (b :: t).dropLast from rfl]
      exact nameRegexCore_digit_head _ _ hd
  · rw [if_neg hl]
    exact nameRegexCore_digit_head _ _ hd

theorem matchesNameRegex_space (s : String) (h : ' ' ∈ s.data) :
    matchesNameRegex s = false := by
  unfold matchesNameRegex
  simp only []
  by_cases hl : s.data.getLast? = some '\n'
  · rw [if_pos hl]
    exact nameRegexCore_space _
      (mem_dropLast_of_ne_last s.data ' ' '\n' h hl (by decide))
  · rw [if_neg hl]
    exact nameRegexCore_space _ h

/-- C7: `validate_project_name` rejects the empty string, any string
longer than 50 characters, any string starting with a digit, any string
containing a space, and the literal `test` (a reserved name); it accepts
`my-project_1` and returns it unchanged. -/
theorem validate_name_classes :
    (validate_project_name "" = .error .emptyName) ∧
    (∀ s : String, 50 < s.length →
      validate_project_name s = .error .tooLong) ∧
    (∀ (s : String) (c : Char) (rest : List Char), s.data = c :: rest →
      c.isDigit = true → ∃ e, validate_project_name s = .error e) ∧
    (∀ s : String, ' ' ∈ s.data → ∃ e, validate_project_name s = .error e) ∧
    (validate_project_name "test" = .error .reservedName) ∧
    (validate_project_name "my-project_1" = .ok "my-project_1") := by
  refine ⟨by decide, ?_, ?_, ?_, by decide, by decide⟩
  · intro s h
    have hne : ¬ s = "" := by
      rintro rfl
      simp at h
    unfold validate_project_name
    rw [if_neg hne, if_pos h]
  · intro s c rest hdata hd
    have hne : ¬ s = "" := by
      rintro rfl
      simp at hdata
    by_cases h50 : 50 < s.length
    · refine ⟨.tooLong, ?_⟩
      unfold validate_project_name
      rw [if_neg hne, if_pos h50]
    · refine ⟨.badChars, ?_⟩
      unfold validate_project_name
      rw [if_neg hne, if_neg h50,
        if_pos (by simp [matchesNameRegex_digit s c rest hdata hd])]
  · intro s hsp
    have hne : ¬ s = "" := by
      rintro rfl
      simp at hsp
    by_cases h50 : 50 < s.length
    · refine ⟨.tooLong, ?_⟩
      unfold validate_project_name
      rw [if_neg hne, if_pos h50]
    · refine ⟨.badChars, ?_⟩
      unfold validate_project_name
      rw [if_neg hne, if_neg h50,
        if_pos (by simp [matchesNameRegex_space s hsp])]

/-- Witness for C7 at concrete inputs: a 51-character name, a name
starting with a digit, and a name containing a space are rejected. -/
theorem validate_name_classes_witness :
    (50 <
      ("aaaaaaaaaaaaaaaaaaaaaaaaaaaaaaaaaaaaaaaaaaaaaaaaaaa" :
        String).length) ∧
    (validate_project_name
      "aaaaaaaaaaaaaaaaaaaaaaaaaaaaaaaaaaaaaaaaaaaaaaaaaaa" =
      .error .tooLong) ∧
    (∃ e, validate_project_name "1abc" = .error e) ∧
    (∃ e, validate_project_name "a b" = .error e) :=
  ⟨by decide,
   validate_name_classes.2.1 _ (by decide),
   validate_name_classes.2.2.1 "1abc" '1' ['a', 'b', 'c'] (by decide)
     (by decide),
   validate_name_classes.2.2.2.1 "a b" (by decide)⟩

set_option maxHeartbeats 2000000 in
/-- C10: the reserved-name check of `validate_project_name` is
case-insensitive: every string whose lower-casing is one of the reserved
names `test`, `build`, `dist`, `env`, `venv` is rejected with the
reserved-name failure. -/
theorem reserved_names_case_insensitive (s : String)
    (h : pyLower s ∈ reservedNames) :
    validate_project_name s = .error .reservedName := by
  obtain ⟨l⟩ := s
  simp only [reservedNames, List.mem_cons, List.not_mem_nil, or_false] at h
  rcases h with h | h | h | h | h
  · have hm : l.map lowerChar = ['t', 'e', 's', 't'] := by
      have h2 := congrArg String.data h
      simpa [pyLower] using h2
    obtain ⟨c1, l1, rfl, h1, hm⟩ := map_eq_cons' _ _ _ _ hm
    obtain ⟨c2, l2, rfl, h2, hm⟩ := map_eq_cons' _ _ _ _ hm
    obtain ⟨c3, l3, rfl, h3, hm⟩ := map_eq_cons' _ _ _ _ hm
    obtain ⟨c4, l4, rfl, h4, hm⟩ := map_eq_cons' _ _ _ _ hm
    simp only [List.map_eq_nil_iff] at hm
    subst hm
    rcases lowerChar_cases c1 't' 'T' (by decide) (by decide) (by decide) h1
      with rfl | rfl <;>
    rcases lowerChar_cases c2 'e' 'E' (by decide) (by decide) (by decide) h2
      with rfl | rfl <;>
    rcases lowerChar_cases c3 's' 'S' (by decide) (by decide) (by decide) h3
      with rfl | rfl <;>
    rcases lowerChar_cases c4 't' 'T' (by decide) (by decide) (by decide) h4
      with rfl | rfl <;>
      decide
  · have hm : l.map lowerChar = ['b', 'u', 'i', 'l', 'd'] := by
      have h2 := congrArg String.data h
      simpa [pyLower] using h2
    obtain ⟨c1, l1, rfl, h1, hm⟩ := map_eq_cons' _ _ _ _ hm
    obtain ⟨c2, l2, rfl, h2, hm⟩ := map_eq_cons' _ _ _ _ hm
    obtain ⟨c3, l3, rfl, h3, hm⟩ := map_eq_cons' _ _ _ _ hm
    obtain ⟨c4, l4, rfl, h4, hm⟩ := map_eq_cons' _ _ _ _ hm
    obtain ⟨c5, l5, rfl, h5, hm⟩ := map_eq_cons' _ _ _ _ hm
    simp only [List.map_eq_nil_iff] at hm
    subst hm
    rcases lowerChar_cases c1 'b' 'B' (by decide) (by decide) (by decide) h1
      with rfl | rfl <;>
    rcases lowerChar_cases c2 'u' 'U' (by decide) (by decide) (by decide) h2
      with rfl | rfl <;>
    rcases lowerChar_cases c3 'i' 'I' (by decide) (by decide) (by decide) h3
      with rfl | rfl <;>
    rcases lowerChar_cases c4 'l' 'L' (by decide) (by decide) (by decide) h4
      with rfl | rfl <;>
    rcases lowerChar_cases c5 'd' 'D' (by decide) (by decide) (by decide) h5
      with rfl | rfl <;>
      decide
  · have hm : l.map lowerChar = ['d', 'i', 's', 't'] := by
      have h2 := congrArg String.data h
      simpa [pyLower] using h2
    obtain ⟨c1, l1, rfl, h1, hm⟩ := map_eq_cons' _ _ _ _ hm
    obtain ⟨c2, l2, rfl, h2, hm⟩ := map_eq_cons' _ _ _ _ hm
    obtain ⟨c3, l3, rfl, h3, hm⟩ := map_eq_cons' _ _ _ _ hm
    obtain ⟨c4, l4, rfl, h4, hm⟩ := map_eq_cons' _ _ _ _ hm
    simp only [List.map_eq_nil_iff] at hm
    subst hm
    rcases lowerChar_cases c1 'd' 'D' (by decide) (by decide) (by decide) h1
      with rfl | rfl <;>
    rcases lowerChar_cases c2 'i' 'I' (by decide) (by decide) (by decide) h2
      with rfl | rfl <;>
    rcases lowerChar_cases c3 's' 'S' (by decide) (by decide) (by decide) h3
      with rfl | rfl <;>
    rcases lowerChar_cases c4 't' 'T' (by decide) (by decide) (by decide) h4
      with rfl | rfl <;>
      decide
  · have hm : l.map lowerChar = ['e', 'n', 'v'] := by
      have h2 := congrArg String.data h
      simpa [pyLower] using h2
    obtain ⟨c1, l1, rfl, h1, hm⟩ := map_eq_cons' _ _ _ _ hm
    obtain ⟨c2, l2, rfl, h2, hm⟩ := map_eq_cons' _ _ _ _ hm
    obtain ⟨c3, l3, rfl, h3, hm⟩ := map_eq_cons' _ _ _ _ hm
    simp only [List.map_eq_nil_iff] at hm
    subst hm
    rcases lowerChar_cases c1 'e' 'E' (by decide) (by decide) (by decide) h1
      with rfl | rfl <;>
    rcases lowerChar_cases c2 'n' 'N' (by decide) (by decide) (by decide) h2
      with rfl | rfl <;>
    rcases lowerChar_cases c3 'v' 'V' (by decide) (by decide) (by decide) h3
      with rfl | rfl <;>
      decide
  · have hm : l.map lowerChar = ['v', 'e', 'n', 'v'] := by
      have h2 := congrArg String.data h
      simpa [pyLower] using h2
    obtain ⟨c1, l1, rfl, h1, hm⟩ := map_eq_cons' _ _ _ _ hm
    obtain ⟨c2, l2, rfl, h2, hm⟩ := map_eq_cons' _ _ _ _ hm
    obtain ⟨c3, l3, rfl, h3, hm⟩ := map_eq_cons' _ _ _ _ hm
    obtain ⟨c4, l4, rfl, h4, hm⟩ := map_eq_cons' _ _ _ _ hm
    simp only [List.map_eq_nil_iff] at hm
    subst hm
    rcases lowerChar_cases c1 'v' 'V' (by decide) (by decide) (by decide) h1
      with rfl | rfl <;>
    rcases lowerChar_cases c2 'e' 'E' (by decide) (by decide) (by decide) h2
      with rfl | rfl <;>
    rcases lowerChar_cases c3 'n' 'N' (by decide) (by decide) (by decide) h3
      with rfl | rfl <;>
    rcases lowerChar_cases c4 'v' 'V' (by decide) (by decide) (by decide) h4
      with rfl | rfl <;>
      decide

/-- Witness for C10 at concrete inputs: `Test` and `BUILD` lower-case to
reserved names and are rejected with the reserved-name failure. -/
theorem reserved_names_case_insensitive_witness :
    (pyLower "Test" ∈ reservedNames) ∧
    (validate_project_name "Test" = .error .reservedName) ∧
    (validate_project_name "BUILD" = .error .reservedName) :=
  ⟨by decide, reserved_names_case_insensitive "Test" (by decide),
   reserved_names_case_insensitive "BUILD" (by decide)⟩

theorem splitNl_ne_nil (l : List Char) : splitNl l ≠ [] := by
  induction l with
  | nil => simp [splitNl]
  | cons c t ih =>
    by_cases hc : c = '\n'
    · subst hc
      simp [splitNl]
    · simp only [splitNl, if_neg hc]
      rcases h2 : splitNl t with _ | ⟨h, r⟩
      · exact absurd h2 ih
      · simp

theorem splitNl_cons_ne (c : Char) (t : List Char) (hc : ¬ c = '\n') :
    splitNl (c :: t) =
      (c :: (splitNl t).headI) :: (splitNl t).tail := by
  simp only [splitNl, if_neg hc]
  rcases h2 : splitNl t with _ | ⟨h, r⟩
  · exact absurd h2 (splitNl_ne_nil t)
  · simp

theorem splitNl_no_nl (l : List Char) : ∀ p ∈ splitNl l, '\n' ∉ p := by
  induction l with
  | nil =>
    intro p hp
    simp [splitNl] at hp
    simp [hp]
  | cons c t ih =>
    by_cases hc : c = '\n'
    · subst hc
      intro p hp
      simp only [splitNl, if_true, List.mem_cons] at hp
      rcases hp with rfl | hp
      · simp
      · exact ih p hp
    · intro p hp
      rw [splitNl_cons_ne c t hc] at hp
      have hex : ∃ h r, splitNl t = h :: r := by
        rcases h2 : splitNl t with _ | ⟨h, r⟩
        · exact absurd h2 (splitNl_ne_nil t)
        · exact ⟨h, r, rfl⟩
      obtain ⟨h, r, hh⟩ := hex
      rw [hh] at hp
      simp only [List.headI, List.tail_cons] at hp
      rcases List.mem_cons.mp hp with rfl | hp2
      · intro hmem
        rcases List.mem_cons.mp hmem with he | hmem2
        · exact hc he.symm
        · have hm : h ∈ splitNl t := by
            rw [hh]; exact List.mem_cons_self _ _
          exact ih h hm hmem2
      · have hm : p ∈ splitNl t := by
          rw [hh]; exact List.mem_cons.mpr (Or.inr hp2)
        exact ih p hm

theorem splitNl_append_piece (p rest : List Char) (hp : '\n' ∉ p) :
    splitNl (p ++ '\n' :: rest) = p :: splitNl rest := by
  induction p with
  | nil => simp [splitNl]
  | cons c t ih =>
    have hc : ¬ c = '\n' := fun he => hp (he ▸ List.mem_cons_self _ _)
    have ht : '\n' ∉ t := fun hm => hp (List.mem_cons.mpr (Or.inr hm))
    rw [List.cons_append, splitNl_cons_ne c _ hc, ih ht]
    simp

theorem splitNl_joinNl (ps : List (List Char)) (hne : ps ≠ [])
    (hnl : ∀ p ∈ ps, '\n' ∉ p) :
    splitNl (joinNlChars ps ++ ['\n']) = ps ++ [[]] := by
  induction ps with
  | nil => exact absurd rfl hne
  | cons p ps ih =>
    cases ps with
    | nil =>
      rw [show joinNlChars [p] = p from rfl]
      rw [splitNl_append_piece p [] (hnl p (List.mem_cons_self _ _))]
      rfl
    | cons q r =>
      have hp : '\n' ∉ p := hnl p (List.mem_cons_self _ _)
      have hrest : ∀ x ∈ q :: r, '\n' ∉ x :=
        fun x hx => hnl x (List.mem_cons.mpr (Or.inr hx))
      have hih := ih (by simp) hrest
      rw [show joinNlChars (p :: q :: r) = p ++ '\n' :: joinNlChars (q :: r)
        from rfl]
      rw [List.append_assoc, List.cons_append]
      rw [splitNl_append_piece p _ hp, hih]
      simp

theorem pySplitlines_no_nl (s : String) : ∀ x ∈ pySplitlines s, '\n' ∉ x.data := by
  intro x hx
  unfold pySplitlines at hx
  simp only [] at hx
  have hx2 : x ∈ (splitNl s.data).map String.mk := by
    by_cases hg : ((splitNl s.data).map String.mk).getLast? = some ""
    · rw [if_pos hg] at hx
      exact List.dropLast_subset _ hx
    · rw [if_neg hg] at hx
      exact hx
  obtain ⟨p, hp, rfl⟩ := List.mem_map.mp hx2
  exact splitNl_no_nl s.data p hp

theorem pySplitlines_joinNl (ls : List String) (hne : ¬ ls = [])
    (hnl : ∀ x ∈ ls, '\n' ∉ x.data) :
    pySplitlines (pyJoinNl ls ++ "\n") = ls := by
  have hdata : (pyJoinNl ls ++ "\n").data
      = joinNlChars (ls.map String.data) ++ ['\n'] := by
    simp [pyJoinNl]
  have hps : splitNl (pyJoinNl ls ++ "\n").data
      = ls.map String.data ++ [[]] := by
    rw [hdata]
    refine splitNl_joinNl _ (by simpa using hne) ?_
    intro p hp
    obtain ⟨x, hx, rfl⟩ := List.mem_map.mp hp
    exact hnl x hx
  have hmk : (ls.map String.data).map String.mk = ls := by
    rw [List.map_map]
    have hcomp : (String.mk ∘ String.data) = id := funext (fun x => rfl)
    rw [hcomp, List.map_id]
  unfold pySplitlines
  simp only []
  rw [hps, List.map_append, hmk]
  have hl : ([([] : List Char)].map String.mk) = [""] := rfl
  rw [hl, List.getLast?_concat, if_pos rfl]
  exact List.dropLast_concat

theorem gi_ne_env (root : FPath) :
    ¬ (root ++ [".gitignore"] : FPath) = root ++ [credFileName] := by
  simp [credFileName]

theorem save_token_env_read (fs : FS) (root : FPath) (t : String) :
    (save_project_token fs root t).read (root ++ [credFileName])
      = some ("GITHUB_TOKEN=" ++ t ++ "\n") := by
  have hne := gi_ne_env root
  unfold save_project_token saveTokenOps
  simp only []
  rw [read_applyOp_write_ne fs _ _ _ hne]
  split
  · exact read_applyOp_write_self fs _ _
  · exact (read_applyOp_write_ne (fs.applyOp _) _ _ _
      (fun h => hne h.symm)).trans (read_applyOp_write_self fs _ _)

theorem save_token_gi_read (fs : FS) (root : FPath) (t : String) :
    (save_project_token fs root t).read (root ++ [".gitignore"])
      = savedGiContent fs root := by
  have hne := gi_ne_env root
  unfold save_project_token saveTokenOps savedGiContent
  simp only []
  rw [read_applyOp_write_ne fs _ _ _ hne]
  cases hread : fs.read (root ++ [".gitignore"]) with
  | none =>
    simp only [List.nil_append]
    simp
    exact read_applyOp_write_self (fs.applyOp _) _ _
  | some c =>
    by_cases hm : credFileName ∈ pySplitlines c
    · simp [hm]
      exact (read_applyOp_write_ne fs _ _ _ hne).trans hread
    · simp [hm]
      exact read_applyOp_write_self (fs.applyOp _) _ _

theorem savedGiContent_mem (fs : FS) (root : FPath) (c : String)
    (h : savedGiContent fs root = some c) :
    credFileName ∈ pySplitlines c := by
  unfold savedGiContent at h
  cases hread : fs.read (root ++ [".gitignore"]) with
  | none =>
    rw [hread] at h
    simp at h
    subst h
    rw [pySplitlines_joinNl [credFileName] (by simp) (by decide)]
    simp
  | some c0 =>
    rw [hread] at h
    by_cases hm : credFileName ∈ pySplitlines c0
    · simp [hm] at h
      subst h
      exact hm
    · simp [hm] at h
      subst h
      rw [pySplitlines_joinNl _ (by simp) ?hnl]
      · simp
      case hnl =>
        intro x hx
        rcases List.mem_append.mp hx with hx | hx
        · exact pySplitlines_no_nl c0 x hx
        · simp at hx
          subst hx
          decide

theorem ignoreCount_save (fs : FS) (root : FPath) (t : String) :
    ignoreCount (save_project_token fs root t) root
      = max 1 (ignoreCount fs root) := by
  unfold ignoreCount
  rw [save_token_gi_read]
  unfold savedGiContent
  cases hread : fs.read (root ++ [".gitignore"]) with
  | none =>
    simp only [List.nil_append]
    simp
    rw [pySplitlines_joinNl [credFileName] (by simp) (by decide)]
    simp
  | some c =>
    by_cases hm : credFileName ∈ pySplitlines c
    · simp [hm]
    · simp [hm]
      rw [pySplitlines_joinNl _ (by simp) ?hnl2]
      · rw [List.count_append]
        have h0 : (pySplitlines c).count credFileName = 0 :=
          List.count_eq_zero.mpr hm
        rw [h0]
        simp
      case hnl2 =>
        intro x hx
        rcases List.mem_append.mp hx with hx | hx
        · exact pySplitlines_no_nl c x hx
        · simp at hx
          subst hx
          decide

/-- C8 (counterexample): if the ignore file already holds two copies of the
`.sparkstart.env` line, two `save_project_token` calls with different tokens
leave two ignore-rule lines, not exactly one, refuting "exactly one
ignore-rule line ... for every prior ignore-file content". -/
theorem save_token_twice_counterexample :
    ignoreCount
        (save_project_token
          (save_project_token
            (FS.write FS.empty ["p", ".gitignore"]
              ".sparkstart.env\n.sparkstart.env\n")
            ["p"] "tokA")
          ["p"] "tokB")
        ["p"] = 2 ∧
    ¬ ignoreCount
        (save_project_token
          (save_project_token
            (FS.write FS.empty ["p", ".gitignore"]
              ".sparkstart.env\n.sparkstart.env\n")
            ["p"] "tokA")
          ["p"] "tokB")
        ["p"] = 1 := by
  decide

/-- C8 (amended): after two `save_project_token` calls on the same project
directory, the credential file holds exactly the one entry with the latest
token value, and the number of ignore-rule lines for the credential file is
`max 1` of the prior count — in particular exactly one whenever the prior
ignore file held at most one such line (e.g. any file the tool itself
produced), though pre-existing duplicates are preserved. -/
theorem save_token_twice (fs : FS) (root : FPath) (t1 t2 : String) :
    (save_project_token (save_project_token fs root t1) root t2).read
        (root ++ [credFileName]) = some ("GITHUB_TOKEN=" ++ t2 ++ "\n") ∧
    ignoreCount (save_project_token (save_project_token fs root t1) root t2)
        root = max 1 (ignoreCount fs root) := by
  refine ⟨save_token_env_read _ _ _, ?_⟩
  rw [ignoreCount_save, ignoreCount_save]
  omega

theorem isPrefixOf_exists (n : List Char) : ∀ l : List Char,
    n.isPrefixOf l = true ↔ ∃ t, l = n ++ t := by
  induction n with
  | nil => intro l; simp [List.isPrefixOf]
  | cons c n ih =>
    intro l
    cases l with
    | nil => simp [List.isPrefixOf]
    | cons d l2 =>
      simp only [List.isPrefixOf, Bool.and_eq_true, beq_iff_eq, ih,
        List.cons_append]
      constructor
      · rintro ⟨rfl, t, rfl⟩
        exact ⟨t, rfl⟩
      · rintro ⟨t, he⟩
        injection he with h1 h2
        exact ⟨h1.symm, t, h2⟩

theorem segOf_exists (n : List Char) : ∀ h : List Char,
    segOf n h = true ↔ ∃ s t, h = s ++ n ++ t := by
  intro h
  constructor
  · intro hs
    induction h with
    | nil =>
      simp [segOf, List.isEmpty_iff] at hs
      exact ⟨[], [], by simp [hs]⟩
    | cons c t ih =>
      simp only [segOf, Bool.or_eq_true] at hs
      rcases hs with hp | hs
      · obtain ⟨r, hr⟩ := (isPrefixOf_exists n (c :: t)).mp hp
        exact ⟨[], r, by simp [hr]⟩
      · obtain ⟨s, r, hr⟩ := ih hs
        exact ⟨c :: s, r, by simp [hr]⟩
  · rintro ⟨s, t, rfl⟩
    induction s with
    | nil =>
      simp only [List.nil_append]
      cases hn : n ++ t with
      | nil =>
        have hn2 : n = [] := (List.append_eq_nil.mp hn).1
        simp [segOf, hn2]
      | cons c r =>
        simp only [segOf, Bool.or_eq_true]
        left
        rw [isPrefixOf_exists]
        exact ⟨t, hn.symm⟩
    | cons c s ih =>
      simp only [List.cons_append, segOf, Bool.or_eq_true]
      right
      exact ih

theorem segOf_length {n h : List Char} (hs : segOf n h = true) :
    n.length ≤ h.length := by
  obtain ⟨s, t, rfl⟩ := (segOf_exists n h).mp hs
  simp [List.length_append]
  omega

theorem segOf_trans {a b c : List Char} (h1 : segOf a b = true)
    (h2 : segOf b c = true) : segOf a c = true := by
  obtain ⟨s1, t1, rfl⟩ := (segOf_exists a b).mp h1
  obtain ⟨s2, t2, rfl⟩ := (segOf_exists _ c).mp h2
  exact (segOf_exists a _).mpr ⟨s2 ++ s1, t1 ++ t2, by simp⟩

theorem segOf_mem {n h : List Char} (hs : segOf n h = true) :
    ∀ ch ∈ n, ch ∈ h := by
  obtain ⟨s, t, rfl⟩ := (segOf_exists n h).mp hs
  intro ch hc
  simp [hc]

theorem isPrefixOf_drop_nl (n : List Char) (hn : '\n' ∉ n) :
    ∀ xs q : List Char, n.isPrefixOf (xs ++ '\n' :: q) = true →
      n.isPrefixOf xs = true := by
  induction n with
  | nil => intro xs q _; simp [List.isPrefixOf]
  | cons c n2 ih =>
    intro xs q h
    have hc : ¬ c = '\n' := fun he => hn (he ▸ List.mem_cons_self _ _)
    have hn2 : '\n' ∉ n2 := fun hm => hn (List.mem_cons.mpr (Or.inr hm))
    cases xs with
    | nil =>
      exfalso
      simp only [List.nil_append, List.isPrefixOf, Bool.and_eq_true,
        beq_iff_eq] at h
      exact hc h.1
    | cons d xs2 =>
      simp only [List.cons_append, List.isPrefixOf, Bool.and_eq_true,
        beq_iff_eq] at h ⊢
      exact ⟨h.1, ih hn2 xs2 q h.2⟩

theorem segOf_split_nl (n : List Char) (hn : '\n' ∉ n) :
    ∀ xs q : List Char, segOf n (xs ++ '\n' :: q) = true →
      segOf n xs = true ∨ segOf n q = true := by
  intro xs
  induction xs with
  | nil =>
    intro q h
    simp only [List.nil_append, segOf, Bool.or_eq_true] at h
    rcases h with hp | h
    · left
      have hnil := isPrefixOf_drop_nl n hn [] q hp
      cases n with
      | nil => simp [segOf]
      | cons c n2 => simp [List.isPrefixOf] at hnil
    · right; exact h
  | cons d xs2 ih =>
    intro q h
    simp only [List.cons_append, segOf, Bool.or_eq_true] at h
    rcases h with hp | h
    · left
      have hp2 := isPrefixOf_drop_nl n hn (d :: xs2) q hp
      simp only [segOf, Bool.or_eq_true]
      left
      exact hp2
    · rcases ih q h with h1 | h2
      · left
        simp only [segOf, Bool.or_eq_true]
        right
        exact h1
      · right; exact h2

theorem segOf_joinNl (n : List Char) (hn : '\n' ∉ n) (hne : ¬ n = []) :
    ∀ ls : List (List Char), segOf n (joinNlChars ls) = true →
      ∃ x ∈ ls, segOf n x = true := by
  intro ls
  induction ls with
  | nil =>
    intro h
    simp [segOf, List.isEmpty_iff] at h
    exact absurd h hne
  | cons p ps ih =>
    cases ps with
    | nil =>
      intro h
      exact ⟨p, by simp, h⟩
    | cons q r =>
      intro h
      rw [show joinNlChars (p :: q :: r) = p ++ '\n' :: joinNlChars (q :: r)
        from rfl] at h
      rcases segOf_split_nl n hn p (joinNlChars (q :: r)) h with h1 | h2
      · exact ⟨p, by simp, h1⟩
      · obtain ⟨x, hx, hseg⟩ := ih h2
        exact ⟨x, List.mem_cons.mpr (Or.inr hx), hseg⟩

theorem splitNl_headI_pre (l : List Char) :
    ∃ t, l = (splitNl l).headI ++ t := by
  induction l with
  | nil => exact ⟨[], rfl⟩
  | cons c t ih =>
    by_cases hc : c = '\n'
    · subst hc
      refine ⟨'\n' :: t, ?_⟩
      have hsp : splitNl ('\n' :: t) = [] :: splitNl t := by simp [splitNl]
      rw [hsp]
      rfl
    · obtain ⟨r, hr⟩ := ih
      refine ⟨r, ?_⟩
      rw [splitNl_cons_ne c t hc]
      show c :: t = c :: (splitNl t).headI ++ r
      rw [List.cons_append, ← hr]

theorem mem_splitNl_seg (l : List Char) :
    ∀ p ∈ splitNl l, segOf p l = true := by
  induction l with
  | nil =>
    intro p hp
    simp [splitNl] at hp
    subst hp
    simp [segOf]
  | cons c t ih =>
    by_cases hc : c = '\n'
    · subst hc
      intro p hp
      have hsp : splitNl ('\n' :: t) = [] :: splitNl t := by simp [splitNl]
      rw [hsp] at hp
      rcases List.mem_cons.mp hp with rfl | hp2
      · simp [segOf, List.isPrefixOf]
      · simp only [segOf, Bool.or_eq_true]
        right
        exact ih p hp2
    · intro p hp
      rw [splitNl_cons_ne c t hc] at hp
      rcases List.mem_cons.mp hp with rfl | hp2
      · simp only [segOf, Bool.or_eq_true]
        left
        rw [isPrefixOf_exists]
        obtain ⟨r, hr⟩ := splitNl_headI_pre t
        exact ⟨r, by rw [List.cons_append, ← hr]⟩
      · have hex : ∃ h r, splitNl t = h :: r := by
          rcases h2 : splitNl t with _ | ⟨h, r⟩
          · exact absurd h2 (splitNl_ne_nil t)
          · exact ⟨h, r, rfl⟩
        obtain ⟨h, r, hh⟩ := hex
        rw [hh] at hp2
        have hmem : p ∈ splitNl t := by
          rw [hh]
          exact List.mem_cons.mpr (Or.inr hp2)
        simp only [segOf, Bool.or_eq_true]
        right
        exact ih p hmem

theorem mem_pySplitlines_occurs (c x : String) (hx : x ∈ pySplitlines c) :
    occursIn x c := by
  unfold occursIn
  unfold pySplitlines at hx
  simp only [] at hx
  have hx2 : x ∈ (splitNl c.data).map String.mk := by
    by_cases hg : ((splitNl c.data).map String.mk).getLast? = some ""
    · rw [if_pos hg] at hx
      exact List.dropLast_subset _ hx
    · rw [if_neg hg] at hx
      exact hx
  obtain ⟨p, hp, rfl⟩ := List.mem_map.mp hx2
  exact mem_splitNl_seg c.data p hp

theorem occursIn_pyJoinNl (n : String) (hn : '\n' ∉ n.data)
    (hne : ¬ n = "") (ls : List String)
    (h : occursIn n (pyJoinNl ls ++ "\n")) : ∃ x ∈ ls, occursIn n x := by
  unfold occursIn at h
  have hdata : (pyJoinNl ls ++ "\n").data
      = joinNlChars (ls.map String.data) ++ '\n' :: [] := by
    simp [pyJoinNl]
  rw [hdata] at h
  have hne2 : ¬ n.data = [] := by
    intro h0
    apply hne
    cases n with
    | mk d =>
      simp at h0
      subst h0
      rfl
  rcases segOf_split_nl n.data hn (joinNlChars (ls.map String.data)) [] h
    with h1 | h2
  · obtain ⟨xd, hxd, hseg⟩ := segOf_joinNl n.data hn hne2 _ h1
    obtain ⟨x, hx, rfl⟩ := List.mem_map.mp hxd
    exact ⟨x, hx, hseg⟩
  · simp [segOf, List.isEmpty_iff] at h2
    exact absurd h2 hne2

theorem replaceFirst_pref (old nw r : List Char) (h : ¬ old = []) :
    replaceFirstChars old nw (old ++ r) = nw ++ r := by
  cases old with
  | nil => exact absurd rfl h
  | cons c t =>
    rw [List.cons_append]
    simp only [replaceFirstChars]
    rw [if_pos ?hp]
    case hp =>
      rw [isPrefixOf_exists]
      exact ⟨r, by rw [List.cons_append]⟩
    rw [List.length_cons, List.drop_succ_cons, List.drop_left]

theorem authRepoUrl_https (rest tok : String) :
    authRepoUrl ("https://" ++ rest) tok = "https://" ++ tok ++ "@" ++ rest := by
  unfold authRepoUrl pyReplaceFirst
  have h1 : ("https://" ++ rest).data = "https://".data ++ rest.data := by
    simp
  rw [h1, replaceFirst_pref _ _ _ (by decide)]
  have h2 : ("https://" ++ tok ++ "@").data ++ rest.data
      = ("https://" ++ tok ++ "@" ++ rest).data := by simp
  rw [h2]

theorem segOf_tok_auth (tok rest : String) :
    segOf tok.data ("https://" ++ tok ++ "@" ++ rest).data = true := by
  rw [segOf_exists]
  refine ⟨"https://".data, "@".data ++ rest.data, ?_⟩
  simp

theorem at_mem_auth (tok rest : String) :
    '@' ∈ ("https://" ++ tok ++ "@" ++ rest).data := by
  have hd : ("https://" ++ tok ++ "@" ++ rest).data
      = "https://".data ++ (tok.data ++ ("@".data ++ rest.data)) := by simp
  rw [hd]
  exact List.mem_append.mpr (Or.inr (List.mem_append.mpr (Or.inr
    (List.mem_append.mpr (Or.inl (by decide))))))

theorem auth_length (tok rest : String) :
    ("https://" ++ tok ++ "@" ++ rest).data.length
      = 9 + tok.data.length + rest.data.length := by
  have hd : ("https://" ++ tok ++ "@" ++ rest).data
      = "https://".data ++ tok.data ++ "@".data ++ rest.data := by simp
  rw [hd, List.length_append, List.length_append, List.length_append]
  have h1 : "https://".data.length = 8 := by decide
  have h2 : "@".data.length = 1 := by decide
  omega

theorem cred_content_length (t : String) :
    ("GITHUB_TOKEN=" ++ t ++ "\n").data.length = 14 + t.data.length := by
  have hd : ("GITHUB_TOKEN=" ++ t ++ "\n").data
      = "GITHUB_TOKEN=".data ++ t.data ++ "\n".data := by simp
  rw [hd, List.length_append, List.length_append]
  have h1 : "GITHUB_TOKEN=".data.length = 13 := by decide
  have h2 : "\n".data.length = 1 := by decide
  omega

theorem mentions_mono {a b : String} (hab : segOf a.data b.data = true)
    (e : Event) (h : Event.mentions b e = true) :
    Event.mentions a e = true := by
  cases e with
  | mkdirEv p => simp [Event.mentions] at h
  | fileWrite p c =>
    simp only [Event.mentions] at h ⊢
    exact segOf_trans hab h
  | gitCmd args cwd =>
    simp only [Event.mentions, List.any_eq_true] at h ⊢
    obtain ⟨x, hx, hseg⟩ := h
    exact ⟨x, hx, segOf_trans hab hseg⟩
  | echo m =>
    simp only [Event.mentions] at h ⊢
    exact segOf_trans hab h
  | httpReq me u2 =>
    simp only [Event.mentions] at h ⊢
    exact segOf_trans hab h
  | browserOpen u2 =>
    simp only [Event.mentions] at h ⊢
    exact segOf_trans hab h
  | venvCreate p => simp [Event.mentions] at h

theorem mem_saveTokenOps (fs : FS) (root : FPath) (t : String) (op : FsOp)
    (h : op ∈ saveTokenOps fs root t) :
    op = FsOp.writeOp (root ++ [credFileName])
        ("GITHUB_TOKEN=" ++ t ++ "\n") ∨
    ∃ ls, op = FsOp.writeOp (root ++ [".gitignore"])
        (pyJoinNl (ls ++ [credFileName]) ++ "\n") ∧
      ((fs.read (root ++ [".gitignore"]) = none ∧ ls = []) ∨
       ∃ c0, fs.read (root ++ [".gitignore"]) = some c0
          ∧ ls = pySplitlines c0) := by
  unfold saveTokenOps at h
  simp only [] at h
  rw [read_applyOp_write_ne fs _ _ _ (gi_ne_env root)] at h
  cases hread : fs.read (root ++ [".gitignore"]) with
  | none =>
    rw [hread] at h
    simp at h
    rcases h with rfl | rfl
    · left; rfl
    · right
      exact ⟨[], by simp, Or.inl ⟨rfl, rfl⟩⟩
  | some c0 =>
    rw [hread] at h
    by_cases hm : credFileName ∈ pySplitlines c0
    · simp [hm] at h
      subst h
      left; rfl
    · simp [hm] at h
      rcases h with rfl | rfl
      · left; rfl
      · right
        exact ⟨pySplitlines c0, rfl, Or.inr ⟨c0, rfl, rfl⟩⟩

theorem no_auth_in_short_args (A : String) (hA : 15 ≤ A.data.length)
    (args : List String) (hargs : ∀ a ∈ args, a.data.length ≤ 14)
    (cwd : FPath) (h : Event.mentions A (Event.gitCmd args cwd) = true) :
    False := by
  simp only [Event.mentions, List.any_eq_true] at h
  obtain ⟨a, ha, hseg⟩ := h
  have h1 := segOf_length hseg
  have h2 := hargs a ha
  omega

/-- C1 (counterexample): in a successful `github=true` run the
authenticated clone URL is not used only for the push step: core.py
line 141 passes it to `git remote add origin`, which durably registers it
as the remote URL in the repository configuration, while the push command
of line 142 (`git push -u origin main`) does not mention it at all.  The
run below succeeds, its trace holds the remote-add command carrying the
token-bearing URL, and the push command carries no URL. -/
theorem auth_url_push_only_counterexample :
    (create_project sampleRegistry sampleExt FS.empty ["demo1"] true
        "python" false none false).err = none ∧
    Event.gitCmd ["git", "remote", "add", "origin",
        "https://tok123@github.com/alice/demo1.git"] ["demo1"]
      ∈ (create_project sampleRegistry sampleExt FS.empty ["demo1"] true
          "python" false none false).trace ∧
    Event.gitCmd ["git", "push", "-u", "origin", "main"] ["demo1"]
      ∈ (create_project sampleRegistry sampleExt FS.empty ["demo1"] true
          "python" false none false).trace ∧
    Event.mentions "https://tok123@github.com/alice/demo1.git"
        (Event.gitCmd ["git", "remote", "add", "origin",
          "https://tok123@github.com/alice/demo1.git"] ["demo1"]) = true ∧
    Event.mentions "https://tok123@github.com/alice/demo1.git"
        (Event.gitCmd ["git", "push", "-u", "origin", "main"] ["demo1"])
      = false := by
  decide

/-- C1 (amended): in every successful `create_project` run with
`github=true` — provided the resolved token is nonempty, newline-free and
does not occur in the template text, the summary lines, the token URL, the
credential file name or the pre-existing ignore file — the authenticated
clone URL `https://TOKEN@...` surfaces in exactly one place of the run's
observable behaviour: the argument vector of the `git remote add origin`
command.  In particular no file written by the orchestrator and no console
message contains it; but it is not confined to the push step, which never
receives it: the remote-add command does, durably registering the
token-bearing URL as the remote. -/
theorem auth_url_confined (R : Registry) (ext : Ext) (fs0 : FS)
    (path : FPath) (lang : String) (dc : Bool) (template : Option String)
    (tutorial : Bool) (url rest tok : String)
    (htok : tok = resolvedToken ext
      (fsAtToken R fs0 path lang dc template tutorial) path true)
    (hok : ext.createRepo = Except.ok url)
    (hurl : url = "https://" ++ rest)
    (hrest : 6 ≤ rest.data.length)
    (htnl : '\n' ∉ tok.data)
    (htne : ¬ tok = "")
    (hpre : ∀ e ∈ preTrace R ext path lang dc template tutorial,
      Event.mentions tok e = false)
    (hsum : ∀ m ∈ R.summaryLines (pathName path) lang dc true tutorial,
      ¬ occursIn tok m)
    (hnew : ¬ occursIn tok (R.newTokenUrl (pathName path)))
    (hcred : ¬ occursIn tok credFileName)
    (hgi : ((fsAtToken R fs0 path lang dc template tutorial).read
        (path ++ [".gitignore"])).all
        (fun c => ! segOf tok.data c.data) = true)
    (hsucc : (create_project R ext fs0 path true lang dc template
        tutorial).err = none) :
    ∀ e ∈ (create_project R ext fs0 path true lang dc template
        tutorial).trace,
      Event.mentions (authRepoUrl url tok) e = true →
      e = Event.gitCmd ["git", "remote", "add", "origin",
          authRepoUrl url tok] path := by
  intro e he hm
  have hA : authRepoUrl url tok = "https://" ++ tok ++ "@" ++ rest := by
    rw [hurl]; exact authRepoUrl_https rest tok
  have htokA : segOf tok.data (authRepoUrl url tok).data = true := by
    rw [hA]; exact segOf_tok_auth tok rest
  have hatA : '@' ∈ (authRepoUrl url tok).data := by
    rw [hA]; exact at_mem_auth tok rest
  have hAlen2 : (authRepoUrl url tok).data.length
      = 9 + tok.data.length + rest.data.length := by
    rw [hA]; exact auth_length tok rest
  have hA15 : 15 ≤ (authRepoUrl url tok).data.length := by omega
  rcases create_shape R ext fs0 path true lang dc template tutorial
    with hbad | heq
  · exact absurd hsucc hbad
  rw [heq] at he
  unfold successTrace at he
  simp only [] at he
  rw [← htok] at he
  simp only [List.mem_append] at he
  rcases he with ((((hel | hel) | hel) | hel) | hel)
  · have hfalse := hpre e hel
    have htr := mentions_mono htokA e hm
    rw [hfalse] at htr
    exact absurd htr (by decide)
  · unfold tokenEvents at hel
    rw [if_pos rfl] at hel
    by_cases hfe : fileEnvToken ext
        (fsAtToken R fs0 path lang dc template tutorial) path = ""
    swap
    · rw [if_neg hfe] at hel
      simp at hel
    rw [if_pos hfe] at hel
    have htokeq : tok = ext.promptToken := by
      rw [htok]
      unfold resolvedToken
      rw [if_pos rfl, if_pos hfe]
    rcases List.mem_append.mp hel with h3 | h4
    · simp only [List.mem_cons, List.not_mem_nil, or_false] at h3
      rcases h3 with rfl | rfl | rfl
      · simp only [Event.mentions] at hm
        exact absurd (segOf_mem hm '@' hatA) (by decide)
      · simp only [Event.mentions] at hm
        have := segOf_trans htokA hm
        exact absurd this hnew
      · simp only [Event.mentions] at hm
        exact absurd (segOf_mem hm '@' hatA) (by decide)
    · obtain ⟨op, hop, rfl⟩ := List.mem_map.mp h4
      rcases mem_saveTokenOps _ _ _ op hop with rfl | ⟨ls, rfl, hls⟩
      · simp only [FsOp.event, Event.mentions] at hm
        have hlen := segOf_length hm
        have hcl := cred_content_length ext.promptToken
        have htl : tok.data.length = ext.promptToken.data.length := by
          rw [htokeq]
        omega
      · simp only [FsOp.event, Event.mentions] at hm
        have hocc : segOf tok.data
            (pyJoinNl (ls ++ [credFileName]) ++ "\n").data = true :=
          segOf_trans htokA hm
        obtain ⟨x, hx, hxo⟩ := occursIn_pyJoinNl tok htnl htne
          (ls ++ [credFileName]) hocc
        rcases List.mem_append.mp hx with hxl | hxr
        · rcases hls with ⟨hnone, rfl⟩ | ⟨c0, hc0, rfl⟩
          · exact absurd hxl (List.not_mem_nil x)
          · have hxc := mem_pySplitlines_occurs c0 x hxl
            have hctr : segOf tok.data c0.data = true :=
              segOf_trans hxo hxc
            rw [hc0] at hgi
            simp only [Option.all] at hgi
            simp [hctr] at hgi
        · simp only [List.mem_cons, List.not_mem_nil, or_false] at hxr
          subst hxr
          exact absurd hxo hcred
  · simp only [List.mem_cons, List.not_mem_nil, or_false] at hel
    rcases hel with rfl | rfl | rfl
    · exact (no_auth_in_short_args _ hA15 _ (by decide) path hm).elim
    · exact (no_auth_in_short_args _ hA15 _ (by decide) path hm).elim
    · exact (no_auth_in_short_args _ hA15 _ (by decide) path hm).elim
  · rw [if_pos trivial] at hel
    unfold remoteEvents at hel
    rw [hok] at hel
    simp only [List.mem_cons, List.not_mem_nil, or_false] at hel
    rcases hel with rfl | rfl | rfl
    · simp only [Event.mentions] at hm
      exact absurd (segOf_mem hm '@' hatA) (by decide)
    · rfl
    · exact (no_auth_in_short_args _ hA15 _ (by decide) path hm).elim
  · obtain ⟨m, hme, rfl⟩ := List.mem_map.mp hel
    simp only [Event.mentions] at hm
    exact absurd (segOf_trans htokA hm) (hsum m hme)

theorem auth_url_confined_witness :
    "tok123" = resolvedToken sampleExt
        (fsAtToken sampleRegistry FS.empty ["demo1"] "python" false none
          false) ["demo1"] true ∧
    (∀ e ∈ (create_project sampleRegistry sampleExt FS.empty ["demo1"]
        true "python" false none false).trace,
      Event.mentions (authRepoUrl "https://github.com/alice/demo1.git"
        "tok123") e = true →
      e = Event.gitCmd ["git", "remote", "add", "origin",
          authRepoUrl "https://github.com/alice/demo1.git" "tok123"]
        ["demo1"]) :=
  ⟨by decide,
   auth_url_confined sampleRegistry sampleExt FS.empty ["demo1"] "python"
     false none false "https://github.com/alice/demo1.git"
     "github.com/alice/demo1.git" "tok123" (by decide) (by decide)
     (by decide) (by decide) (by decide) (by decide) (by decide)
     (by decide) (by decide) (by decide) (by decide) (by decide)⟩

end Sparkstart
